import Mathlib

/-!
Verification of the router-state reconciliation engine of the Cisco L3
configuration agent (`neutron/plugins/cisco/l3/agent/`).

The development shallowly embeds the relevant Python code:

* `cfg_agent.py` — `L3NATAgent.process_router`,
  `process_router_floating_ips`, `routes_updated`, `external_gateway_added`,
  `external_gateway_removed`, `internal_network_added/removed`,
  `_router_removed`, `_sync_routers_task` (follow-up steps);
* `l3_cfg_agent.py` — `HostingEntities.is_hosting_entity_reachable`,
  `check_backlogged_hosting_entities`, `clear_driver_connection`,
  `remove_driver`;
* `csr1000v/csr1000v_routing_driver.py` — the configuration-push operations
  and `_check_response`.

Python lists mutated during iteration (`list.remove` inside a `for` loop)
are modelled exactly: the iterator advances by index, so removing the
current element shifts the successor into the vacated slot and the
successor is skipped.  Driver invocations are recorded as a trace of
`DriverCall` events; exceptions are modelled with `Except`.
-/

/-- Boolean list membership by decidable equality (Python `x in xs`). -/
def memB {α : Type} [DecidableEq α] (a : α) : List α → Bool
  | [] => false
  | x :: xs => if x = a then true else memB a xs

/-- Remove the first occurrence of `a` (Python `list.remove(a)`; the Python
call raises `ValueError` when `a` is absent, a case no call site reaches
because the removed element is always drawn from the list itself). -/
def eraseFirst {α : Type} [DecidableEq α] : List α → α → List α
  | [], _ => []
  | x :: xs, a => if x = a then xs else x :: eraseFirst xs a

/-- Lookup in an association list whose head holds the most recent binding
(Python `dict` built by repeated `d[k] = v`: later assignments win, so the
builder below prepends and this lookup scans from the head). -/
def dlookup {α : Type} (k : String) : List (String × α) → Option α
  | [] => none
  | (k', v) :: rest => if k = k' then some v else dlookup k rest

/-- Update the value bound to `k` in an association list (Python mutates
the dict entry in place; dicts hold one binding per key, so updating the
first binding is the dict semantics). -/
def updateAssoc {α : Type} (k : String) (g : α → α) :
    List (String × α) → List (String × α)
  | [] => []
  | (k', v) :: rest =>
    if k = k' then (k', g v) :: rest else (k', v) :: updateAssoc k g rest

theorem memB_iff {α : Type} [DecidableEq α] (a : α) (l : List α) :
    memB a l = true ↔ a ∈ l := by
  induction l with
  | nil => simp [memB]
  | cons x xs ih =>
    simp only [memB, List.mem_cons]
    by_cases h : x = a
    · simp [h]
    · simp only [if_neg h, ih]
      constructor
      · exact Or.inr
      · rintro (rfl | hm)
        · exact absurd rfl h
        · exact hm

theorem memB_eq_false_iff {α : Type} [DecidableEq α] (a : α) (l : List α) :
    memB a l = false ↔ a ∉ l := by
  rw [← memB_iff a l]
  cases memB a l <;> simp

/-! ## Data model

Router specs as consumed by the agent (`ri.router` dict fields). -/

/-- A router port (`gw_port` or an element of the `interfaces` list).
`ip_cidr` is the key `_set_subnet_info` adds; absent until then. -/
structure Port where
  id : String
  admin_state_up : Bool
  fixed_ips : List String
  subnet_cidr : String
  ip_cidr : Option String := none
deriving DecidableEq, Repr

/-- A floating IP.  `port_id = none` models a falsy `port_id` (no bound
port); `fixed_ip_address = none` models a falsy fixed address. -/
structure FloatingIp where
  id : String
  floating_ip_address : String
  fixed_ip_address : Option String
  port_id : Option String
deriving DecidableEq, Repr

/-- A route entry (`{destination, nexthop}` dict). -/
structure Route where
  destination : String
  nexthop : String
deriving DecidableEq, Repr

/-- The desired router spec (the `ri.router` dict): gateway port,
internal interfaces, floating IPs, routes and the snat flag
(`enable_snat`, defaulted to true by the `RouterInfo.router` setter). -/
structure Router where
  gw_port : Option Port
  interfaces : List Port
  floating_ips : List FloatingIp
  routes : List Route
  enable_snat : Option Bool
deriving DecidableEq, Repr

/-- `RouterInfo`: per-router applied state (`router_info.py`). -/
structure RouterInfo where
  router_id : String
  ex_gw_port : Option Port
  internal_ports : List Port
  floating_ips : List FloatingIp
  router : Router
  routes : List Route
deriving DecidableEq, Repr

/-- `RouterInfo.snat_enabled`: the router setter stores
`router.get('enable_snat', True)`. -/
def RouterInfo.snat_enabled (ri : RouterInfo) : Bool :=
  ri.router.enable_snat.getD true

/-- One recorded driver invocation issued by the agent. -/
inductive DriverCall where
  | internal_network_added (port : Port)
  | internal_network_removed (port : Port)
  | external_gateway_added (port : Port)
  | external_gateway_removed (port : Port)
  | enable_internal_network_NAT (port ex_port : Port)
  | disable_internal_network_NAT (port ex_port : Port)
  | floating_ip_added (floating : String) (fixed : Option String)
  | floating_ip_removed (floating : String) (fixed : Option String)
  | routes_updated (action : String) (route : Route)
  | router_removed
deriving DecidableEq, Repr

/-- Exceptions escaping a reconciliation pass. -/
inductive AgentError where
  | keyError (key : String)
  | noIpAddress (portId : String)
deriving DecidableEq, Repr

/-- `_set_subnet_info`: raises when the port has no fixed IP; with several,
logs and uses the first; stores `ip_cidr = "<ip>/<prefixlen>"` (the prefix
length taken from the subnet cidr after the slash). -/
def set_subnet_info (p : Port) : Except AgentError Port :=
  match p.fixed_ips with
  | [] => .error (.noIpAddress p.id)
  | ip :: _ =>
      .ok { p with ip_cidr := some (ip ++ "/" ++ (p.subnet_cidr.splitOn "/").getD 1 "") }

/-! ## Floating-IP reconciliation (`process_router_floating_ips`)

The first loop walks the desired floating IPs: entries with a bound port
and an id not in the frozen `existing_floating_ip_ids` set are appended to
the applied list with a `floating_ip_added` call, and every bound entry is
recorded in `id_to_fip_map`. -/

/-- First loop of `process_router_floating_ips`.  Returns the applied list
after appends, the id→fip map (head = latest binding) and the calls. -/
def fipAddLoop (existingIds : List String) :
    List FloatingIp → List FloatingIp → List (String × FloatingIp) →
    List DriverCall → List FloatingIp × List (String × FloatingIp) × List DriverCall
  | [], applied, m, calls => (applied, m, calls)
  | fip :: rest, applied, m, calls =>
    if fip.port_id.isSome then
      if memB fip.id existingIds then
        fipAddLoop existingIds rest applied ((fip.id, fip) :: m) calls
      else
        fipAddLoop existingIds rest (applied ++ [fip]) ((fip.id, fip) :: m)
          (calls ++ [.floating_ip_added fip.floating_ip_address fip.fixed_ip_address])
    else
      fipAddLoop existingIds rest applied m calls

/-- The remap condition `new_fixed_ip and existing_fixed_ip and
new_fixed_ip != existing_fixed_ip` (Python truthiness on the two fixed
addresses). -/
def remapCond (f nf : FloatingIp) : Bool :=
  nf.fixed_ip_address.isSome ∧ f.fixed_ip_address.isSome ∧
    nf.fixed_ip_address ≠ f.fixed_ip_address

/-- Second loop of `process_router_floating_ips`:
`for fip in ri.floating_ips`, where the body removes from and appends to
the iterated list.  Python iterates by index; the state is kept as
`pre ++ rest` with `pre` the elements strictly before the current index
and `rest.head` the current element.  Removing an element (always at an
index at or before the current one) shifts the remainder left, so the
iterator, advancing to the next index, skips the immediate successor:
after a removal the loop continues with the successor of the skipped
element.  An appended element lands at the tail of `rest` and is visited
later.  Branches:

* id in `floating_ip_ids_to_remove` → `remove(fip)` from the list,
  `floating_ip_removed` call, successor skipped;
* else look up the id in `id_to_fip_map` (a `KeyError` when the desired
  entry has no bound port);
* both fixed addresses truthy and different → `floating_ip_removed` then
  `floating_ip_added`, `remove(fip)`, `append(new_fip)`, successor
  skipped;
* otherwise no effect. -/
def fipMutLoop (m : List (String × FloatingIp)) (removeIds : List String) :
    List FloatingIp → List FloatingIp → List DriverCall →
    Except AgentError (List FloatingIp × List DriverCall)
  | pre, [], calls => .ok (pre, calls)
  | pre, f :: suf, calls =>
    if memB f.id removeIds then
      let erased := eraseFirst (pre ++ [f]) f
      let calls := calls ++ [.floating_ip_removed f.floating_ip_address f.fixed_ip_address]
      match suf with
      | [] => .ok (erased, calls)
      | s :: suf' => fipMutLoop m removeIds (erased ++ [s]) suf' calls
    else
      match dlookup f.id m with
      | none => .error (.keyError f.id)
      | some nf =>
        if remapCond f nf then
          let calls := calls ++
            [.floating_ip_removed f.floating_ip_address f.fixed_ip_address,
             .floating_ip_added f.floating_ip_address nf.fixed_ip_address]
          let erased := eraseFirst (pre ++ [f]) f
          match suf with
          | [] => .ok (erased ++ [nf], calls)
          | s :: suf' => fipMutLoop m removeIds (erased ++ [s]) (suf' ++ [nf]) calls
        else
          fipMutLoop m removeIds (pre ++ [f]) suf calls
termination_by _ rest _ => rest.length
decreasing_by all_goals simp_wf <;> omega

/-- `process_router_floating_ips(ri, ex_gw_port)`: diffs the applied
floating IPs (`ri.floating_ips`) against the desired ones
(`ri.router[FLOATINGIP_KEY]`).  Returns the new applied list and the
trace, or the uncaught `KeyError`. -/
def process_router_floating_ips (applied desired : List FloatingIp) :
    Except AgentError (List FloatingIp × List DriverCall) :=
  let existingIds := applied.map (·.id)
  let curIds := desired.map (·.id)
  let (applied1, m, calls1) := fipAddLoop existingIds desired applied [] []
  let removeIds := existingIds.filter (fun i => !memB i curIds)
  match fipMutLoop m removeIds [] applied1 [] with
  | .error e => .error e
  | .ok (applied2, calls2) => .ok (applied2, calls1 ++ calls2)

/-! ## Route reconciliation (`routes_updated`)

`neutron.common.utils.diff_list_of_dict` is not part of this tree (only
its call sites are). -/

/-- Modelled from the spec: `diff_list_of_dict(old, new)` — route lists are
diffed as whole `{destination, nexthop}` entries; entries of the new list
absent from the old list are the additions, entries of the old list absent
from the new list are the removals. -/
def diff_list_of_dict (old new : List Route) : List Route × List Route :=
  (new.filter (fun r => !memB r old), old.filter (fun r => !memB r new))

/-- Inner loop of `routes_updated`:
`for del_route in removes: if route.destination == del_route.destination:
removes.remove(del_route)` — iteration over a list mutated by `remove`,
with the same index semantics (and successor skip) as `fipMutLoop`:
`pre ++ rest` is the current list, `rest.head` the current element. -/
def routeDelScan (dest : String) : List Route → List Route → List Route
  | pre, [] => pre
  | pre, r :: suf =>
    if r.destination = dest then
      let erased := eraseFirst (pre ++ [r]) r
      match suf with
      | [] => erased
      | s :: suf' => routeDelScan dest (erased ++ [s]) suf'
    else
      routeDelScan dest (pre ++ [r]) suf
termination_by _ rest => rest.length
decreasing_by all_goals simp_wf <;> omega

/-- Outer `adds` loop of `routes_updated`: for each added route, scrub
routes with the same destination from `removes`, then issue
`routes_updated(ri, 'replace', route)`. -/
def routeAddLoop : List Route → List Route → List DriverCall →
    List Route × List DriverCall
  | [], removes, calls => (removes, calls)
  | a :: adds, removes, calls =>
      routeAddLoop adds (routeDelScan a.destination [] removes)
        (calls ++ [.routes_updated "replace" a])

/-- `routes_updated(ri)`: diff `ri.routes` (applied) against
`ri.router['routes']` (desired), issue `replace` calls for additions
(suppressing same-destination deletes), `delete` calls for what is left of
the removals, and store the desired list as the applied list. -/
def routes_updated (old new : List Route) : List Route × List DriverCall :=
  let (adds, removes) := diff_list_of_dict old new
  let (removes', calls) := routeAddLoop adds removes []
  (new, calls ++ removes'.map (fun r => .routes_updated "delete" r))

/-! ## Internal-port reconciliation (`process_router`, port phase) -/

/-- Ids of desired internal ports with `admin_state_up`
(`current_port_ids`). -/
def currentPortIds (ri : RouterInfo) : List String :=
  (ri.router.interfaces.filter (·.admin_state_up)).map (·.id)

/-- `new_ports`: desired ports that are up and not yet applied. -/
def newPorts (ri : RouterInfo) : List Port :=
  ri.router.interfaces.filter
    (fun p => memB p.id (currentPortIds ri) &&
      !memB p.id (ri.internal_ports.map (·.id)))

/-- `old_ports`: applied ports whose id is no longer among the desired up
ports. -/
def oldPorts (ri : RouterInfo) : List Port :=
  ri.internal_ports.filter (fun p => !memB p.id (currentPortIds ri))

/-- New-port loop: `_set_subnet_info(p)` (may raise), then
`internal_network_added(ri, p, ex_gw_port)` — a driver
`internal_network_added` plus, when snat is enabled and a desired gateway
exists, `enable_internal_network_NAT` — then append to
`ri.internal_ports`. -/
def addNewPortsLoop (snat : Bool) (exGw : Option Port) :
    List Port → List Port → List DriverCall →
    Except AgentError (List Port × List DriverCall)
  | [], applied, calls => .ok (applied, calls)
  | p :: rest, applied, calls =>
    match set_subnet_info p with
    | .error e => .error e
    | .ok p' =>
      let natCalls : List DriverCall :=
        match exGw with
        | some g => if snat then [.enable_internal_network_NAT p' g] else []
        | none => []
      addNewPortsLoop snat exGw rest (applied ++ [p'])
        (calls ++ [.internal_network_added p'] ++ natCalls)

/-- Old-port loop: `internal_network_removed(ri, p, ex_gw_port)` — a
driver `internal_network_removed` plus, when snat is enabled and a desired
gateway exists, `disable_internal_network_NAT` — then
`ri.internal_ports.remove(p)`.  `old_ports` is a fresh list, so this loop
has no iteration/mutation interaction. -/
def removeOldPortsLoop (snat : Bool) (exGw : Option Port) :
    List Port → List Port → List Port × List DriverCall
  | [], applied => (applied, [])
  | p :: rest, applied =>
    let natCalls : List DriverCall :=
      match exGw with
      | some g => if snat then [.disable_internal_network_NAT p g] else []
      | none => []
    let (applied', cs) := removeOldPortsLoop snat exGw rest (eraseFirst applied p)
    (applied', .internal_network_removed p :: natCalls ++ cs)

/-! ## Gateway phase -/

/-- Gateway phase of `process_router`.  Desired gateway present, applied
absent → `_set_subnet_info` (may raise) then `external_gateway_added`:
gateway subinterface first, then, with snat enabled and applied internal
ports present, `enable_internal_network_NAT` per port.  Desired absent,
applied present → `external_gateway_removed`: NAT disabled per applied
port first, then the gateway subinterface removal.  Returns the value the
trailing `ri.ex_gw_port = ex_gw_port` assignment stores (the gateway dict,
mutated by `_set_subnet_info` in the add branch). -/
def gwStep (snat : Bool) (exGw appliedGw : Option Port) (ports : List Port) :
    Except AgentError (Option Port × List DriverCall) :=
  match exGw, appliedGw with
  | some g, none =>
    match set_subnet_info g with
    | .error e => .error e
    | .ok g' =>
      .ok (some g', .external_gateway_added g' ::
        (if snat ∧ ports ≠ [] then
          ports.map (fun p => .enable_internal_network_NAT p g') else []))
  | none, some h =>
    .ok (none,
      (if snat ∧ ports ≠ [] then
        ports.map (fun p => .disable_internal_network_NAT p h) else []) ++
      [.external_gateway_removed h])
  | _, _ => .ok (exGw, [])

/-! ## `process_router` -/

/-- `L3NATAgent.process_router(ri)`: port phase, gateway phase,
floating-IP phase (only when a desired gateway exists), store the desired
gateway as applied, route phase.  Returns the updated `RouterInfo` and the
ordered driver-call trace, or the first uncaught exception. -/
def process_router (ri : RouterInfo) : Except AgentError (RouterInfo × List DriverCall) :=
  let snat := ri.snat_enabled
  let exGw := ri.router.gw_port
  match addNewPortsLoop snat exGw (newPorts ri) ri.internal_ports [] with
  | .error e => .error e
  | .ok (ports1, c1) =>
    let (ports2, c2) := removeOldPortsLoop snat exGw (oldPorts ri) ports1
    match gwStep snat exGw ri.ex_gw_port ports2 with
    | .error e => .error e
    | .ok (gwFinal, c3) =>
      match (match exGw with
             | some _ => process_router_floating_ips ri.floating_ips ri.router.floating_ips
             | none => .ok (ri.floating_ips, [])) with
      | .error e => .error e
      | .ok (fips', c4) =>
        let (routes', c5) := routes_updated ri.routes ri.router.routes
        .ok ({ ri with internal_ports := ports2, ex_gw_port := gwFinal,
                       floating_ips := fips', routes := routes' },
             c1 ++ c2 ++ c3 ++ c4 ++ c5)

/-! ## Device registry (`HostingEntities`, `l3_cfg_agent.py`) -/

/-- A hosting-device record as delivered in the router spec
(`router['hosting_device']`), with `created_at` already parsed to a
timestamp (seconds). -/
structure HEntity where
  id : String
  ip_address : String
  created_at : Nat
  booting_time : Nat
deriving DecidableEq, Repr

/-- A cached driver handle.  `csr_conn` records whether a connection is
cached; `clear_connection` sets it to `None`. -/
structure CsrDriverHandle where
  csr_conn : Bool
deriving DecidableEq, Repr

/-- A backlog entry: the device record, the backlog-insertion timestamp
(stored by the source inside the device dict under
`'backlog_insertion_ts'`; modelled as an entry field since only
backlogged entries carry it, and it is only popped right before the entry
is deleted) and the affected router ids. -/
structure BacklogEntry where
  he : HEntity
  backlog_insertion_ts : Nat
  routers : List String
deriving DecidableEq, Repr

/-- The `HostingEntities` registry state: router→device bindings, cached
drivers per device id, and the backlog map. -/
structure HostingEntitiesState where
  router_id_hosting_entities : List (String × HEntity)
  drivers : List (String × CsrDriverHandle)
  backlog : List (String × BacklogEntry)
deriving DecidableEq, Repr

/-- `clear_driver_connection(he_id)`: when a driver is cached for the
device, call `driver.clear_connection()` (drop the cached connection).
The driver itself stays in the cache. -/
def clear_driver_connection (st : HostingEntitiesState) (heId : String) :
    HostingEntitiesState :=
  { st with drivers :=
      updateAssoc heId (fun d => { d with csr_conn := false }) st.drivers }

/-- `timeutils.is_older_than(before, seconds)`:
`utcnow() - before > timedelta(seconds=seconds)`.  With `Nat` timestamps
the truncated subtraction matches: a `before` in the future is never
older. -/
def is_older_than (now before seconds : Nat) : Bool :=
  now - before > seconds

/-- `is_hosting_entity_reachable(router_id, router)`.  Device not
backlogged: probe; reachable → `True` with no state change; unreachable →
store `backlog_insertion_ts = max(utcnow(), created_at + booting_time)`,
create the backlog entry with this router id, clear the cached driver's
connection, return `False`.  Device already backlogged: append the router
id to the entry's router list and return `False` without probing (the
`pingable` argument stands for the probe outcome `is_pingable` would
deliver; the backlogged branch never consults it). -/
def is_hosting_entity_reachable (now : Nat) (pingable : Bool)
    (routerId : String) (he : HEntity) (st : HostingEntitiesState) :
    Bool × HostingEntitiesState :=
  match dlookup he.id st.backlog with
  | none =>
    if pingable then
      (true, st)
    else
      let ts := max now (he.created_at + he.booting_time)
      let st := { st with
        backlog := st.backlog ++ [(he.id, ⟨he, ts, [routerId]⟩)] }
      (false, clear_driver_connection st he.id)
  | some _ =>
    let backlog' := updateAssoc he.id
      (fun e => { e with routers := e.routers ++ [routerId] }) st.backlog
    (false, { st with backlog := backlog' })

/-- `check_backlogged_hosting_entities()`: walk the backlog (Python 2
`dict.keys()` snapshots the keys, so deleting entries while walking is
safe).  Device younger than its boot time → skip.  Probe: reachable →
drop the entry and report it reachable; still unreachable and backlogged
longer than the dead timeout → report dead and drop the entry; otherwise
leave the entry.  Returns `(reachable ids, dead ids, remaining backlog)`. -/
def check_backlogged_hosting_entities (now deadTimeout : Nat)
    (pingable : String → Bool) :
    List (String × BacklogEntry) →
    List String × List String × List (String × BacklogEntry)
  | [] => ([], [], [])
  | (heId, e) :: rest =>
    let (r, d, b) := check_backlogged_hosting_entities now deadTimeout pingable rest
    if !is_older_than now e.he.created_at e.he.booting_time then
      (r, d, (heId, e) :: b)
    else if pingable e.he.ip_address then
      (heId :: r, d, b)
    else if is_older_than now e.backlog_insertion_ts deadTimeout then
      (r, heId :: d, b)
    else
      (r, d, (heId, e) :: b)

/-- Python `==` between a hosting-device id (a `str`) and a binding value
(the hosting-device `dict`): values of different builtin types never
compare equal, so the membership test `he_id not in
self.router_id_hosting_entities.values()` inside `remove_driver` is
always true. -/
def idEqHostingEntityRecord (_ : String) (_ : HEntity) : Bool := false

/-- `remove_driver(router_id)`: `del` the router's binding (the caller
has just bound the router, so the key is present; modelled as a filter),
then drop every cached driver whose device id is not among the remaining
binding values — a comparison of ids against device dicts, which never
matches. -/
def remove_driver (st : HostingEntitiesState) (routerId : String) :
    HostingEntitiesState :=
  let bindings := st.router_id_hosting_entities.filter (fun kv => kv.1 ≠ routerId)
  { st with
    router_id_hosting_entities := bindings,
    drivers := st.drivers.filter
      (fun kv => (bindings.map Prod.snd).any
        (fun he => idEqHostingEntityRecord kv.1 he)) }

/-! ## Router removal (`_router_removed`, deconfigure=True) -/

/-- `_router_removed(router_id, deconfigure=True)` for a known router:
clear `gw_port`, the interface list and the floating-IP list in the
desired spec, run `process_router`, call `driver.router_removed`, then
`remove_driver(router_id)`.  Returns the resulting applied state, the
driver-call trace and the registry state. -/
def router_removed_deconfigure (ri : RouterInfo) (reg : HostingEntitiesState) :
    Except AgentError (RouterInfo × List DriverCall × HostingEntitiesState) :=
  let ri := { ri with router :=
    { ri.router with gw_port := none, interfaces := [], floating_ips := [] } }
  match process_router ri with
  | .error e => .error e
  | .ok (ri', calls) =>
      .ok (ri', calls ++ [.router_removed], remove_driver reg ri.router_id)

/-! ## CSR1000v driver pushes (`csr1000v_routing_driver.py`)

The device is abstracted to what the pushed operations observe: the XML
reply text returned for a config push, and the predicates the guarded
operations read from the running config (`_get_vrfs`, `_interface_exists`,
`_check_acl`, `_cfg_exists`). -/

/-- A push failure (`raise Exception("Error!")` in `_check_response`). -/
inductive PushError where
  | pushFailure
deriving DecidableEq, Repr

/-- Whether the reply text contains the success marker, Python
`"<ok />" in xml_str` (substring containment over the character
sequences). -/
def hasOkMarker (xml : String) : Bool :=
  decide ("<ok />".data <:+: xml.data)

/-- `_check_response(rpc_obj, snippet_name)`: `True` when the reply holds
the `<ok />` marker, otherwise log the error fields and raise. -/
def check_response (xml : String) : Except PushError Bool :=
  if hasOkMarker xml then .ok true else .error .pushFailure

/-- The device as seen by the driver operations. -/
structure Device where
  reply : String
  vrfs : List String
  interfaces : List String
  acl_present : Bool
  snat_cfg_present : Bool
  default_route_cfg_present : Bool
deriving DecidableEq, Repr

/-- A Python catch-all `except Exception:` handler that only logs. -/
def pyCatchAll (x : Except PushError Unit) : Except PushError Unit :=
  match x with
  | .error _ => .ok ()
  | .ok u => .ok u

/-- The `try` body of `create_vrf`: push `CREATE_VRF` and check the
reply. -/
def create_vrf_body (d : Device) (_vrf : String) : Except PushError Unit :=
  (check_response d.reply).map (fun _ => ())

/-- `create_vrf(vrf_name)`: the whole body sits inside
`try: ... except Exception: LOG.exception(...)`, so a push failure is
swallowed and the call returns normally. -/
def create_vrf (d : Device) (vrf : String) : Except PushError Unit :=
  pyCatchAll (create_vrf_body d vrf)

/-- `remove_vrf(vrf_name)`: push and check only when the VRF is present
in the running config. -/
def remove_vrf (d : Device) (vrf : String) : Except PushError Unit :=
  if memB vrf d.vrfs then (check_response d.reply).map (fun _ => ()) else .ok ()

/-- `edit_running_config(confstr, snippet)`: push and check; the check
raises on a missing marker and nothing catches it here. -/
def edit_running_config (d : Device) : Except PushError Unit :=
  (check_response d.reply).map (fun _ => ())

/-- `create_subinterface(...)`: a missing VRF is only logged; the push
goes through `edit_running_config`. -/
def create_subinterface (d : Device) : Except PushError Unit :=
  edit_running_config d

/-- `remove_subinterface(...)`: push and check only when the
subinterface exists in the running config. -/
def remove_subinterface (d : Device) (subif : String) : Except PushError Unit :=
  if memB subif d.interfaces then (check_response d.reply).map (fun _ => ())
  else .ok ()

/-- `nat_rules_for_internet_access(...)`: under the config lock, push the
ACL (unless already present), the dynamic SNAT rule and the two
interface NAT bindings, checking each reply. -/
def nat_rules_for_internet_access (d : Device) : Except PushError Unit := do
  if !d.acl_present then
    let _ ← check_response d.reply
  let _ ← check_response d.reply
  let _ ← check_response d.reply
  let _ ← check_response d.reply
  pure ()

/-- `add_interface_nat(...)`: one checked push. -/
def add_interface_nat (d : Device) : Except PushError Unit :=
  (check_response d.reply).map (fun _ => ())

/-- `remove_interface_nat(...)`: one checked push. -/
def remove_interface_nat (d : Device) : Except PushError Unit :=
  (check_response d.reply).map (fun _ => ())

/-- `remove_dyn_nat_rule(...)`: checked push of the rule removal when the
SNAT config line exists, then a checked push of the ACL removal. -/
def remove_dyn_nat_rule (d : Device) : Except PushError Unit := do
  if d.snat_cfg_present then
    let _ ← check_response d.reply
  let _ ← check_response d.reply
  pure ()

/-- `add_floating_ip(...)`: one checked push of the static mapping. -/
def add_floating_ip (d : Device) : Except PushError Unit :=
  (check_response d.reply).map (fun _ => ())

/-- `remove_floating_ip(...)`: one checked push of the mapping removal. -/
def remove_floating_ip (d : Device) : Except PushError Unit :=
  (check_response d.reply).map (fun _ => ())

/-- `add_static_route(...)`: one checked push. -/
def add_static_route (d : Device) : Except PushError Unit :=
  (check_response d.reply).map (fun _ => ())

/-- `remove_static_route(...)`: one checked push. -/
def remove_static_route (d : Device) : Except PushError Unit :=
  (check_response d.reply).map (fun _ => ())

/-- `add_default_static_route(...)`: checked push unless the default
route is already configured. -/
def add_default_static_route (d : Device) : Except PushError Unit :=
  if !d.default_route_cfg_present then (check_response d.reply).map (fun _ => ())
  else .ok ()

/-- `remove_default_static_route(...)`: checked push when the default
route is configured. -/
def remove_default_static_route (d : Device) : Except PushError Unit :=
  if d.default_route_cfg_present then (check_response d.reply).map (fun _ => ())
  else .ok ()

/-! ## Full-resync follow-up (`_sync_routers_task`, `cfg_agent.py`)

The follow-up steps invoke methods on `self.plugin_rpc`, an
`L3PluginApi`.  Python resolves the attribute name first (a missing
method raises `AttributeError`), then binds keyword arguments against the
method's parameter list (an unexpected keyword raises `TypeError`). -/

/-- A Python-level call failure. -/
inductive PyError where
  | attributeError (name : String)
  | typeError (keyword : String)
deriving DecidableEq, Repr

/-- Methods defined on `L3PluginApi` in `cfg_agent.py` (lines 52–95). -/
def l3_plugin_api_methods : List String :=
  ["get_routers", "get_external_network_id", "report_dead_hosting_devices"]

/-- Keyword parameters of `L3PluginApi.get_routers(self, context,
router_ids=None, hd_ids=[])`. -/
def get_routers_params : List String := ["context", "router_ids", "hd_ids"]

/-- Keyword parameters of `L3PluginApi.report_dead_hosting_devices(self,
context, hd_ids=[])`. -/
def report_dead_hosting_devices_params : List String := ["context", "hd_ids"]

/-- Python method invocation: attribute lookup, then keyword binding. -/
def invokePyMethod (methods : List String) (name : String)
    (params kwargs : List String) : Except PyError Unit :=
  if memB name methods then
    match kwargs.find? (fun k => !memB k params) with
    | some k => .error (.typeError k)
    | none => .ok ()
  else
    .error (.attributeError name)

/-- The follow-up steps of `_sync_routers_task` after
`check_backlogged_hosting_entities` returns `res` (cfg_agent.py lines
454–467): a non-empty `res['reachable']` triggers
`self.plugin_rpc.get_routers(context, router_ids=None,
he_ids=res['reachable'])`; a non-empty `res['dead']` triggers
`self.plugin_rpc.report_dead_hosting_entities(context,
he_ids=res['dead'])`. -/
def sync_routers_task_followup (resReachable resDead : List String) :
    Except PyError Unit := do
  if resReachable ≠ [] then
    invokePyMethod l3_plugin_api_methods "get_routers" get_routers_params
      ["router_ids", "he_ids"]
  if resDead ≠ [] then
    invokePyMethod l3_plugin_api_methods "report_dead_hosting_entities"
      report_dead_hosting_devices_params ["he_ids"]

/-! ## List lemmas -/

theorem mem_eraseFirst_iff_of_ne {α : Type} [DecidableEq α] {x a : α}
    (h : x ≠ a) (l : List α) : x ∈ eraseFirst l a ↔ x ∈ l := by
  induction l with
  | nil => simp [eraseFirst]
  | cons y ys ih =>
    by_cases hy : y = a
    · subst hy
      simp only [eraseFirst, if_pos rfl, List.mem_cons]
      exact ⟨Or.inr, fun hm => hm.elim (fun he => absurd he h) id⟩
    · simp [eraseFirst, hy, ih]

theorem eraseFirst_subset {α : Type} [DecidableEq α] {x a : α} {l : List α}
    (h : x ∈ eraseFirst l a) : x ∈ l := by
  induction l with
  | nil => simp [eraseFirst] at h
  | cons y ys ih =>
    by_cases hy : y = a
    · simp only [eraseFirst, if_pos hy] at h
      exact List.mem_cons_of_mem y h
    · simp only [eraseFirst, if_neg hy, List.mem_cons] at h ⊢
      exact h.imp id ih

theorem eraseFirst_append_singleton {α : Type} [DecidableEq α] {a : α}
    {l : List α} (h : a ∉ l) : eraseFirst (l ++ [a]) a = l := by
  induction l with
  | nil => simp [eraseFirst]
  | cons y ys ih =>
    have hy : y ≠ a := fun he => h (he ▸ List.mem_cons_self y ys)
    simp only [List.cons_append, eraseFirst, if_neg hy, List.append_eq]
    rw [ih (fun hm => h (List.mem_cons_of_mem y hm))]

theorem foldl_eraseFirst_cons {α : Type} [DecidableEq α] (x : α) (t rs : List α)
    (h : ∀ r ∈ rs, r ≠ x) :
    List.foldl eraseFirst (x :: t) rs = x :: List.foldl eraseFirst t rs := by
  induction rs generalizing t with
  | nil => simp
  | cons r rs ih =>
    have hr : x ≠ r := fun he => (h r (List.mem_cons_self r rs)) he.symm
    simp only [List.foldl_cons, eraseFirst, if_neg hr]
    exact ih _ (fun r' hr' => h r' (List.mem_cons_of_mem r hr'))

theorem foldl_eraseFirst_filter {α : Type} [DecidableEq α] (P : α → Bool)
    (l m : List α) (hm : ∀ x ∈ m, P x = true) :
    List.foldl eraseFirst (l ++ m) (l.filter (fun x => !P x)) =
      l.filter P ++ m := by
  induction l with
  | nil => simp
  | cons x xs ih =>
    by_cases hx : P x = true
    · have hfilter : (x :: xs).filter (fun x => !P x) = xs.filter (fun x => !P x) := by
        simp [List.filter_cons, hx]
      rw [hfilter, List.cons_append, foldl_eraseFirst_cons, ih]
      · simp [List.filter_cons, hx]
      · intro r hr
        have := List.of_mem_filter hr
        intro he
        rw [he, hx] at this
        simp at this
    · have hx' : P x = false := by
        cases h : P x
        · rfl
        · exact absurd h hx
      have hfilter : (x :: xs).filter (fun x => !P x) =
          x :: xs.filter (fun x => !P x) := by simp [List.filter_cons, hx']
      rw [hfilter, List.cons_append, List.foldl_cons]
      have : eraseFirst (x :: (xs ++ m)) x = xs ++ m := by
        simp [eraseFirst]
      rw [this, ih]
      simp [List.filter_cons, hx']

/-! ## Port-phase lemmas -/

theorem addNewPortsLoop_ok {snat : Bool} {exGw : Option Port} :
    ∀ {l applied calls ap cs},
    addNewPortsLoop snat exGw l applied calls = .ok (ap, cs) →
    ∃ news, ap = applied ++ news ∧ news.map (·.id) = l.map (·.id) := by
  intro l
  induction l with
  | nil =>
    intro applied calls ap cs h
    simp only [addNewPortsLoop, Except.ok.injEq, Prod.mk.injEq] at h
    exact ⟨[], by simp [← h.1], by simp⟩
  | cons p rest ih =>
    intro applied calls ap cs h
    simp only [addNewPortsLoop] at h
    cases hs : set_subnet_info p with
    | error e => rw [hs] at h; exact absurd h (by simp)
    | ok p' =>
      rw [hs] at h
      obtain ⟨news, hap, hids⟩ := ih h
      refine ⟨p' :: news, by simpa using hap, ?_⟩
      have hp' : p'.id = p.id := by
        simp only [set_subnet_info] at hs
        cases hfx : p.fixed_ips with
        | nil => rw [hfx] at hs; exact absurd hs (by simp)
        | cons ip tl =>
          rw [hfx] at hs
          simp only [Except.ok.injEq] at hs
          rw [← hs]
      simp [hids, hp']

theorem removeOldPortsLoop_fst (snat : Bool) (exGw : Option Port) :
    ∀ (old applied : List Port),
    (removeOldPortsLoop snat exGw old applied).1 =
      List.foldl eraseFirst applied old := by
  intro old
  induction old with
  | nil => intro applied; simp [removeOldPortsLoop]
  | cons p rest ih => intro applied; simp [removeOldPortsLoop, ih]

theorem removeOldPortsLoop_snd_none (snat : Bool) :
    ∀ (old applied : List Port),
    (removeOldPortsLoop snat none old applied).2 =
      old.map (fun p => DriverCall.internal_network_removed p) := by
  intro old
  induction old with
  | nil => intro applied; simp [removeOldPortsLoop]
  | cons p rest ih => intro applied; simp [removeOldPortsLoop, ih]

/-! ## Route-phase lemmas -/

theorem countP_eraseFirst_le {α : Type} [DecidableEq α] (p : α → Bool)
    (a : α) : ∀ l : List α, (eraseFirst l a).countP p ≤ l.countP p := by
  intro l
  induction l with
  | nil => simp [eraseFirst]
  | cons x xs ih =>
    by_cases hx : x = a
    · simp only [eraseFirst, if_pos hx]
      exact (List.sublist_cons_self x xs).countP_le p
    · simp only [eraseFirst, if_neg hx, List.countP_cons]
      omega

theorem routeDelScan_mem {dest : String} {x : Route}
    (hx : x.destination ≠ dest) :
    ∀ pre rest, x ∈ pre ++ rest → x ∈ routeDelScan dest pre rest := by
  intro pre rest
  induction pre, rest using routeDelScan.induct dest with
  | case1 pre => simp [routeDelScan]
  | case2 pre r hr =>
    intro hmem
    have hne : x ≠ r := fun he => hx (he ▸ hr)
    simp only [routeDelScan, if_pos hr]
    rw [mem_eraseFirst_iff_of_ne hne]
    simpa using hmem
  | case3 pre r hr er s suf' ih =>
    intro hmem
    have hne : x ≠ r := fun he => hx (he ▸ hr)
    simp only [routeDelScan, if_pos hr]
    apply ih
    simp only [List.append_assoc, List.mem_append] at hmem ⊢
    rcases hmem with hmem | hmem
    · exact Or.inl ((mem_eraseFirst_iff_of_ne hne _).2 (by simp [hmem]))
    · simp only [List.mem_cons] at hmem
      rcases hmem with rfl | hmem
      · exact Or.inl ((mem_eraseFirst_iff_of_ne hne _).2 (by simp [hx]))
      · rcases hmem with rfl | hmem
        · exact Or.inr (by simp)
        · exact Or.inr (by simp [hmem])
  | case4 pre r suf hr ih =>
    intro hmem
    simp only [routeDelScan, if_neg hr]
    apply ih
    simpa using hmem

theorem routeDelScan_subset {dest : String} :
    ∀ pre rest x, x ∈ routeDelScan dest pre rest → x ∈ pre ++ rest := by
  intro pre rest
  induction pre, rest using routeDelScan.induct dest with
  | case1 pre => simp [routeDelScan]
  | case2 pre r hr =>
    intro x hmem
    simp only [routeDelScan, if_pos hr] at hmem
    have := eraseFirst_subset hmem
    simpa using this
  | case3 pre r hr er s suf' ih =>
    intro x hmem
    simp only [routeDelScan, if_pos hr] at hmem
    have h2 := ih x hmem
    simp only [List.mem_append, List.mem_cons, List.mem_singleton,
      List.not_mem_nil] at h2 ⊢
    rcases h2 with (h | h) | h
    · have := eraseFirst_subset h
      simp only [List.mem_append, List.mem_singleton] at this
      tauto
    · tauto
    · tauto
  | case4 pre r suf hr ih =>
    intro x hmem
    simp only [routeDelScan, if_neg hr] at hmem
    have := ih x hmem
    simp only [List.mem_append, List.mem_cons] at this ⊢
    tauto

theorem routeDelScan_countP_le {dest : String} (p : Route → Bool) :
    ∀ pre rest,
    (routeDelScan dest pre rest).countP p ≤ (pre ++ rest).countP p := by
  intro pre rest
  induction pre, rest using routeDelScan.induct dest with
  | case1 pre => simp [routeDelScan]
  | case2 pre r hr =>
    simp only [routeDelScan, if_pos hr]
    exact countP_eraseFirst_le p r _
  | case3 pre r hr er s suf' ih =>
    simp only [routeDelScan, if_pos hr]
    have h4 := ih
    unfold_let er at h4
    have h1 := countP_eraseFirst_le p r (pre ++ [r])
    have h2 : ((eraseFirst (pre ++ [r]) r ++ [s]) ++ suf').countP p =
        (eraseFirst (pre ++ [r]) r).countP p + ([s] ++ suf').countP p := by
      simp [List.countP_append]
      try omega
    have h3 : (pre ++ r :: s :: suf').countP p =
        (pre ++ [r]).countP p + ([s] ++ suf').countP p := by
      simp [List.countP_append, List.countP_cons]
      try omega
    omega
  | case4 pre r suf hr ih =>
    simp only [routeDelScan, if_neg hr]
    have h1 : ((pre ++ [r]) ++ suf).countP p = (pre ++ r :: suf).countP p := by
      simp [List.countP_append, List.countP_cons]
      try omega
    have h2 := ih
    omega

theorem routeDelScan_noMatch {dest : String} :
    ∀ rest pre, (∀ x ∈ rest, x.destination ≠ dest) →
    routeDelScan dest pre rest = pre ++ rest := by
  intro rest
  induction rest with
  | nil => intro pre _; simp [routeDelScan]
  | cons r suf ih =>
    intro pre h
    have hr : r.destination ≠ dest := h r (List.mem_cons_self r suf)
    simp only [routeDelScan, if_neg hr]
    rw [ih (pre ++ [r]) (fun x hx => h x (List.mem_cons_of_mem r hx))]
    simp

theorem routeDelScan_unique {dest : String} :
    ∀ rest pre, (∀ x ∈ pre, x.destination ≠ dest) →
    rest.countP (fun x => decide (x.destination = dest)) ≤ 1 →
    routeDelScan dest pre rest =
      pre ++ rest.filter (fun x => !decide (x.destination = dest)) := by
  intro rest
  induction rest with
  | nil => intro pre _ _; simp [routeDelScan]
  | cons r suf ih =>
    intro pre hpre hcount
    by_cases hr : r.destination = dest
    · have hrpre : r ∉ pre := fun hm => hpre r hm hr
      have herase : eraseFirst (pre ++ [r]) r = pre :=
        eraseFirst_append_singleton hrpre
      have hsuf : ∀ x ∈ suf, x.destination ≠ dest := by
        intro x hx he
        have hpos : 0 < suf.countP (fun x => decide (x.destination = dest)) :=
          List.countP_pos_iff.mpr ⟨x, hx, by simp [he]⟩
        have hc : (r :: suf).countP (fun x => decide (x.destination = dest)) =
            suf.countP (fun x => decide (x.destination = dest)) + 1 := by
          simp [List.countP_cons, hr]
        omega
      cases suf with
      | nil =>
        simp only [routeDelScan, if_pos hr, herase]
        simp [List.filter_cons, hr]
      | cons s suf' =>
        simp only [routeDelScan, if_pos hr, herase]
        rw [routeDelScan_noMatch suf' (pre ++ [s])
            (fun x hx => hsuf x (List.mem_cons_of_mem s hx))]
        have hs : s.destination ≠ dest := hsuf s (List.mem_cons_self s suf')
        have hfil : (s :: suf').filter (fun x => !decide (x.destination = dest)) =
            s :: suf' := by
          rw [List.filter_eq_self]
          intro a ha
          simp [hsuf a ha]
        simp [List.filter_cons, hr, hfil]
    · simp only [routeDelScan, if_neg hr]
      have hpre' : ∀ x ∈ pre ++ [r], x.destination ≠ dest := by
        intro x hx
        rcases List.mem_append.1 hx with hx | hx
        · exact hpre x hx
        · simp only [List.mem_singleton] at hx
          subst hx
          exact hr
      have hcount' : suf.countP (fun x => decide (x.destination = dest)) ≤ 1 := by
        have hc : (r :: suf).countP (fun x => decide (x.destination = dest)) =
            suf.countP (fun x => decide (x.destination = dest)) := by
          simp [List.countP_cons, hr]
        omega
      rw [ih (pre ++ [r]) hpre' hcount']
      simp [List.filter_cons, hr]

theorem routeAddLoop_fst :
    ∀ adds removes calls, (routeAddLoop adds removes calls).1 =
      List.foldl (fun rs a => routeDelScan a.destination [] rs) removes adds := by
  intro adds
  induction adds with
  | nil => intro removes calls; simp [routeAddLoop]
  | cons a adds ih => intro removes calls; simp [routeAddLoop, ih]

theorem routeAddLoop_snd :
    ∀ adds removes calls, (routeAddLoop adds removes calls).2 =
      calls ++ adds.map (fun a => DriverCall.routes_updated "replace" a) := by
  intro adds
  induction adds with
  | nil => intro removes calls; simp [routeAddLoop]
  | cons a adds ih => intro removes calls; simp [routeAddLoop, ih]

theorem foldl_routeDelScan_subset :
    ∀ (adds : List Route) (removes : List Route) (x : Route),
    x ∈ List.foldl (fun rs a => routeDelScan a.destination [] rs) removes adds →
    x ∈ removes := by
  intro adds
  induction adds with
  | nil => intro removes x h; simpa using h
  | cons a adds ih =>
    intro removes x h
    have := ih _ x h
    have := routeDelScan_subset [] removes x this
    simpa using this

theorem foldl_routeDelScan_countP_le (p : Route → Bool) :
    ∀ (adds : List Route) (removes : List Route),
    (List.foldl (fun rs a => routeDelScan a.destination [] rs) removes adds).countP p ≤
      removes.countP p := by
  intro adds
  induction adds with
  | nil => intro removes; simp
  | cons a adds ih =>
    intro removes
    calc (List.foldl _ (routeDelScan a.destination [] removes) adds).countP p
        ≤ (routeDelScan a.destination [] removes).countP p := ih _
      _ ≤ ([] ++ removes).countP p := routeDelScan_countP_le p [] removes
      _ = removes.countP p := by simp

theorem foldl_routeDelScan_mem :
    ∀ (adds : List Route) (removes : List Route) (x : Route),
    x ∈ removes → (∀ a ∈ adds, a.destination ≠ x.destination) →
    x ∈ List.foldl (fun rs a => routeDelScan a.destination [] rs) removes adds := by
  intro adds
  induction adds with
  | nil => intro removes x h _; simpa using h
  | cons a adds ih =>
    intro removes x h hne
    simp only [List.foldl_cons]
    apply ih
    · apply routeDelScan_mem
      · exact fun he => hne a (List.mem_cons_self a adds) he.symm
      · simpa using h
    · exact fun b hb => hne b (List.mem_cons_of_mem a hb)

/-! ## Floating-IP-phase lemmas -/

theorem fipAddLoop_fst (ids : List String) :
    ∀ desired applied m calls,
    (fipAddLoop ids desired applied m calls).1 =
      applied ++ desired.filter (fun f => f.port_id.isSome && !memB f.id ids) := by
  intro desired
  induction desired with
  | nil => intro applied m calls; simp [fipAddLoop]
  | cons fip rest ih =>
    intro applied m calls
    by_cases hp : fip.port_id.isSome
    · by_cases hm : memB fip.id ids = true
      · simp [fipAddLoop, hp, hm, ih, List.filter_cons]
      · have hm' : memB fip.id ids = false := by
          cases h : memB fip.id ids
          · rfl
          · exact absurd h hm
        simp [fipAddLoop, hp, hm', ih, List.filter_cons]
    · have hp' : fip.port_id.isSome = false := by
        cases h : fip.port_id.isSome
        · rfl
        · exact absurd h hp
      simp [fipAddLoop, hp', ih, List.filter_cons]

theorem fipAddLoop_calls (ids : List String) :
    ∀ desired applied m calls,
    (fipAddLoop ids desired applied m calls).2.2 =
      calls ++ (desired.filter (fun f => f.port_id.isSome && !memB f.id ids)).map
        (fun f => DriverCall.floating_ip_added f.floating_ip_address
          f.fixed_ip_address) := by
  intro desired
  induction desired with
  | nil => intro applied m calls; simp [fipAddLoop]
  | cons fip rest ih =>
    intro applied m calls
    by_cases hp : fip.port_id.isSome
    · by_cases hm : memB fip.id ids = true
      · simp [fipAddLoop, hp, hm, ih, List.filter_cons]
      · have hm' : memB fip.id ids = false := by
          cases h : memB fip.id ids
          · rfl
          · exact absurd h hm
        simp [fipAddLoop, hp, hm', ih, List.filter_cons]
    · have hp' : fip.port_id.isSome = false := by
        cases h : fip.port_id.isSome
        · rfl
        · exact absurd h hp
      simp [fipAddLoop, hp', ih, List.filter_cons]

theorem fipAddLoop_map (ids : List String) :
    ∀ desired applied m calls,
    (fipAddLoop ids desired applied m calls).2.1 =
      ((desired.filter (fun f => f.port_id.isSome)).map
        (fun f => (f.id, f))).reverse ++ m := by
  intro desired
  induction desired with
  | nil => intro applied m calls; simp [fipAddLoop]
  | cons fip rest ih =>
    intro applied m calls
    by_cases hp : fip.port_id.isSome
    · by_cases hm : memB fip.id ids = true
      · simp [fipAddLoop, hp, hm, ih, List.filter_cons]
      · have hm' : memB fip.id ids = false := by
          cases h : memB fip.id ids
          · rfl
          · exact absurd h hm
        simp [fipAddLoop, hp, hm', ih, List.filter_cons]
    · have hp' : fip.port_id.isSome = false := by
        cases h : fip.port_id.isSome
        · rfl
        · exact absurd h hp
      simp [fipAddLoop, hp', ih, List.filter_cons]

theorem dlookup_append_of_none {α : Type} {k : String}
    {l : List (String × α)} (h : dlookup k l = none) (m : List (String × α)) :
    dlookup k (l ++ m) = dlookup k m := by
  induction l with
  | nil => simp
  | cons kv rest ih =>
    simp only [dlookup] at h ⊢
    by_cases hk : k = kv.1
    · rw [if_pos hk] at h
      exact absurd h (by simp)
    · rw [if_neg hk] at h
      cases kv
      simp only [List.cons_append, dlookup, if_neg hk]
      exact ih h

theorem dlookup_append_of_some {α : Type} {k : String} {v : α}
    {l : List (String × α)} (h : dlookup k l = some v) (m : List (String × α)) :
    dlookup k (l ++ m) = some v := by
  induction l with
  | nil => simp [dlookup] at h
  | cons kv rest ih =>
    simp only [dlookup] at h ⊢
    by_cases hk : k = kv.1
    · rw [if_pos hk] at h
      cases kv
      simp only [List.cons_append, dlookup, if_pos hk]
      exact h
    · rw [if_neg hk] at h
      cases kv
      simp only [List.cons_append, dlookup, if_neg hk]
      exact ih h

theorem dlookup_eq_none_of_keys {α : Type} {k : String} :
    ∀ {l : List (String × α)}, (∀ kv ∈ l, kv.1 ≠ k) → dlookup k l = none := by
  intro l
  induction l with
  | nil => intro _; rfl
  | cons kv rest ih =>
    intro h
    have hk : k ≠ kv.1 := fun he => h kv (List.mem_cons_self kv rest) he.symm
    cases kv
    simp only [dlookup, if_neg hk]
    exact ih (fun kv' h' => h kv' (List.mem_cons_of_mem _ h'))

/-- When every desired entry carrying the id has no bound port, the
`id_to_fip_map` built by the first loop has no binding for the id. -/
theorem fip_map_lookup_none {k : String} {desired : List FloatingIp}
    (h : ∀ d ∈ desired, d.id = k → d.port_id = none)
    (m : List (String × FloatingIp)) :
    dlookup k (((desired.filter (fun f => f.port_id.isSome)).map
      (fun f => (f.id, f))).reverse ++ m) = dlookup k m := by
  apply dlookup_append_of_none
  apply dlookup_eq_none_of_keys
  intro kv hkv
  rw [List.mem_reverse] at hkv
  obtain ⟨f, hf, rfl⟩ := List.mem_map.1 hkv
  have hfd := List.of_mem_filter hf
  intro he
  have := h f (List.mem_of_mem_filter hf) he
  rw [this] at hfd
  simp at hfd

/-- In a reversed `(id, entry)` list built from entries with
pairwise-distinct ids, lookup of a member entry's id yields that entry. -/
theorem dlookup_reverse_map_self :
    ∀ (l : List FloatingIp), (l.map (·.id)).Nodup → ∀ d ∈ l,
    dlookup d.id ((l.map (fun f => (f.id, f))).reverse) = some d := by
  intro l
  induction l with
  | nil => intro _ d hd; simp at hd
  | cons x xs ih =>
    intro hnodup d hd
    have hnodup' : (xs.map (·.id)).Nodup ∧ x.id ∉ xs.map (·.id) := by
      simp only [List.map_cons, List.nodup_cons] at hnodup
      exact ⟨hnodup.2, hnodup.1⟩
    simp only [List.map_cons, List.reverse_cons]
    rcases List.mem_cons.1 hd with rfl | hd'
    · have hnone : dlookup d.id ((xs.map (fun f => (f.id, f))).reverse) = none := by
        apply dlookup_eq_none_of_keys
        intro kv hkv
        rw [List.mem_reverse] at hkv
        obtain ⟨f, hf, rfl⟩ := List.mem_map.1 hkv
        intro he
        exact hnodup'.2 (he ▸ List.mem_map_of_mem (·.id) hf)
      rw [dlookup_append_of_none hnone]
      simp [dlookup]
    · exact dlookup_append_of_some (ih hnodup'.1 d hd') _

/-- With pairwise-distinct desired ids, the `id_to_fip_map` built by the
first loop binds each bound desired entry's id to that entry. -/
theorem fip_map_lookup_self {desired : List FloatingIp}
    (hnodup : (desired.map (·.id)).Nodup) {d : FloatingIp} (hd : d ∈ desired)
    (hport : d.port_id.isSome = true) :
    dlookup d.id (((desired.filter (fun f => f.port_id.isSome)).map
      (fun f => (f.id, f))).reverse) = some d := by
  have hsl : (desired.filter (fun f => f.port_id.isSome)).Sublist desired :=
    List.filter_sublist desired
  have hsub : ((desired.filter (fun f => f.port_id.isSome)).map (·.id)).Nodup :=
    (hsl.map (·.id)).nodup hnodup
  exact dlookup_reverse_map_self _ hsub d (List.mem_filter.2 ⟨hd, hport⟩)

theorem fipMutLoop_calls_prefix (m : List (String × FloatingIp))
    (rid : List String) :
    ∀ pre rest calls l cs,
    fipMutLoop m rid pre rest calls = .ok (l, cs) → ∃ Δ, cs = calls ++ Δ := by
  intro pre rest calls
  induction pre, rest, calls using fipMutLoop.induct m rid with
  | case1 pre calls =>
    intro l cs h
    simp only [fipMutLoop, Except.ok.injEq, Prod.mk.injEq] at h
    exact ⟨[], by simp [h.2]⟩
  | case2 pre f calls hmem =>
    intro l cs h
    simp only [fipMutLoop, hmem, if_true, Except.ok.injEq, Prod.mk.injEq] at h
    exact ⟨[DriverCall.floating_ip_removed f.floating_ip_address
      f.fixed_ip_address], by simp [h.2]⟩
  | case3 pre f calls hmem er c1 s suf' ih =>
    intro l cs h
    simp only [fipMutLoop, hmem, if_true] at h
    obtain ⟨Δ, hΔ⟩ := ih l cs h
    refine ⟨DriverCall.floating_ip_removed f.floating_ip_address
      f.fixed_ip_address :: Δ, ?_⟩
    unfold_let c1 at hΔ
    simp [hΔ]
  | case4 pre f suf calls hmem hlook =>
    intro l cs h
    have hmem' : memB f.id rid = false := by
      cases hb : memB f.id rid
      · rfl
      · exact absurd hb hmem
    simp only [fipMutLoop, hmem', Bool.false_eq_true, if_false, hlook] at h
    simp at h
  | case5 pre f calls hmem nf hlook hremap =>
    intro l cs h
    have hmem' : memB f.id rid = false := by
      cases hb : memB f.id rid
      · rfl
      · exact absurd hb hmem
    simp only [fipMutLoop, hmem', Bool.false_eq_true, if_false, hlook, hremap,
      if_true, Except.ok.injEq, Prod.mk.injEq] at h
    exact ⟨[DriverCall.floating_ip_removed f.floating_ip_address
      f.fixed_ip_address,
      DriverCall.floating_ip_added f.floating_ip_address nf.fixed_ip_address],
      by simp [h.2]⟩
  | case6 pre f calls hmem nf hlook hremap c1 er s suf' ih =>
    intro l cs h
    have hmem' : memB f.id rid = false := by
      cases hb : memB f.id rid
      · rfl
      · exact absurd hb hmem
    simp only [fipMutLoop, hmem', Bool.false_eq_true, if_false, hlook, hremap,
      if_true] at h
    obtain ⟨Δ, hΔ⟩ := ih l cs h
    refine ⟨DriverCall.floating_ip_removed f.floating_ip_address
      f.fixed_ip_address ::
      DriverCall.floating_ip_added f.floating_ip_address nf.fixed_ip_address ::
      Δ, ?_⟩
    unfold_let c1 at hΔ
    simp [hΔ]
  | case7 pre f suf calls hmem nf hlook hremap ih =>
    intro l cs h
    have hmem' : memB f.id rid = false := by
      cases hb : memB f.id rid
      · rfl
      · exact absurd hb hmem
    have hremap' : remapCond f nf = false := by
      cases hb : remapCond f nf
      · rfl
      · exact absurd hb hremap
    simp only [fipMutLoop, hmem', Bool.false_eq_true, if_false, hlook, hremap'] at h
    exact ih l cs h

/-- When the mutation loop completes and emitted no `floating_ip_removed`
call, it took the no-effect branch at every element: the list is
unchanged and every element is outside the removal set, has a map binding
and fails the remap condition. -/
theorem fipMutLoop_no_removed (m : List (String × FloatingIp))
    (rid : List String) :
    ∀ pre rest calls l cs,
    fipMutLoop m rid pre rest calls = .ok (l, cs) →
    (∀ fl fx, DriverCall.floating_ip_removed fl fx ∉ cs) →
    l = pre ++ rest ∧
    ∀ f ∈ rest, memB f.id rid = false ∧
      ∃ nf, dlookup f.id m = some nf ∧ remapCond f nf = false := by
  intro pre rest calls
  induction pre, rest, calls using fipMutLoop.induct m rid with
  | case1 pre calls =>
    intro l cs h _
    simp only [fipMutLoop, Except.ok.injEq, Prod.mk.injEq] at h
    exact ⟨by simp [← h.1], by simp⟩
  | case2 pre f calls hmem =>
    intro l cs h hno
    simp only [fipMutLoop, hmem, if_true, Except.ok.injEq, Prod.mk.injEq] at h
    exact absurd (h.2 ▸ (by simp :
      DriverCall.floating_ip_removed f.floating_ip_address f.fixed_ip_address ∈
        calls ++ [DriverCall.floating_ip_removed f.floating_ip_address
          f.fixed_ip_address]))
      (hno f.floating_ip_address f.fixed_ip_address)
  | case3 pre f calls hmem er c1 s suf' ih =>
    intro l cs h hno
    simp only [fipMutLoop, hmem, if_true] at h
    obtain ⟨Δ, hΔ⟩ := fipMutLoop_calls_prefix m rid _ _ _ _ _ h
    unfold_let c1 at hΔ
    exact absurd (hΔ ▸ (by simp :
      DriverCall.floating_ip_removed f.floating_ip_address f.fixed_ip_address ∈
        (calls ++ [DriverCall.floating_ip_removed f.floating_ip_address
          f.fixed_ip_address]) ++ Δ))
      (hno f.floating_ip_address f.fixed_ip_address)
  | case4 pre f suf calls hmem hlook =>
    intro l cs h _
    have hmem' : memB f.id rid = false := by
      cases hb : memB f.id rid
      · rfl
      · exact absurd hb hmem
    simp only [fipMutLoop, hmem', Bool.false_eq_true, if_false, hlook] at h
    simp at h
  | case5 pre f calls hmem nf hlook hremap =>
    intro l cs h hno
    have hmem' : memB f.id rid = false := by
      cases hb : memB f.id rid
      · rfl
      · exact absurd hb hmem
    simp only [fipMutLoop, hmem', Bool.false_eq_true, if_false, hlook, hremap,
      if_true, Except.ok.injEq, Prod.mk.injEq] at h
    exact absurd (h.2 ▸ (by simp :
      DriverCall.floating_ip_removed f.floating_ip_address f.fixed_ip_address ∈
        calls ++ [DriverCall.floating_ip_removed f.floating_ip_address
          f.fixed_ip_address,
          DriverCall.floating_ip_added f.floating_ip_address
            nf.fixed_ip_address]))
      (hno f.floating_ip_address f.fixed_ip_address)
  | case6 pre f calls hmem nf hlook hremap c1 er s suf' ih =>
    intro l cs h hno
    have hmem' : memB f.id rid = false := by
      cases hb : memB f.id rid
      · rfl
      · exact absurd hb hmem
    simp only [fipMutLoop, hmem', Bool.false_eq_true, if_false, hlook, hremap,
      if_true] at h
    obtain ⟨Δ, hΔ⟩ := fipMutLoop_calls_prefix m rid _ _ _ _ _ h
    unfold_let c1 at hΔ
    exact absurd (hΔ ▸ (by simp :
      DriverCall.floating_ip_removed f.floating_ip_address f.fixed_ip_address ∈
        (calls ++ [DriverCall.floating_ip_removed f.floating_ip_address
          f.fixed_ip_address,
          DriverCall.floating_ip_added f.floating_ip_address
            nf.fixed_ip_address]) ++ Δ))
      (hno f.floating_ip_address f.fixed_ip_address)
  | case7 pre f suf calls hmem nf hlook hremap ih =>
    intro l cs h hno
    have hmem' : memB f.id rid = false := by
      cases hb : memB f.id rid
      · rfl
      · exact absurd hb hmem
    have hremap' : remapCond f nf = false := by
      cases hb : remapCond f nf
      · rfl
      · exact absurd hb hremap
    simp only [fipMutLoop, hmem', Bool.false_eq_true, if_false, hlook,
      hremap'] at h
    obtain ⟨hl, hfacts⟩ := ih l cs h hno
    refine ⟨by simp [hl], ?_⟩
    intro g hg
    rcases List.mem_cons.1 hg with rfl | hg'
    · exact ⟨hmem', nf, hlook, hremap'⟩
    · exact hfacts g hg'

/-- When every element of the iterated list is outside the removal set,
has a map binding and fails the remap condition, the mutation loop is a
no-op. -/
theorem fipMutLoop_noop (m : List (String × FloatingIp)) (rid : List String) :
    ∀ rest pre calls,
    (∀ f ∈ rest, memB f.id rid = false ∧
      ∃ nf, dlookup f.id m = some nf ∧ remapCond f nf = false) →
    fipMutLoop m rid pre rest calls = .ok (pre ++ rest, calls) := by
  intro rest
  induction rest with
  | nil => intro pre calls _; simp [fipMutLoop]
  | cons f suf ih =>
    intro pre calls hfacts
    obtain ⟨hmem, nf, hlook, hremap⟩ := hfacts f (List.mem_cons_self f suf)
    have h := ih (pre ++ [f]) calls
      (fun g hg => hfacts g (List.mem_cons_of_mem f hg))
    simp only [fipMutLoop, hmem, Bool.false_eq_true, if_false, hlook, hremap]
    rw [h]
    simp

/-! ## Remap-pairing machinery (claim C4) -/

/-- Every `floating_ip_added` event in the list is immediately preceded
by a `floating_ip_removed` event for the same floating address. -/
def pairedAdds (l : List DriverCall) : Prop :=
  ∀ j fl fx, l[j]? = some (DriverCall.floating_ip_added fl fx) →
    ∃ j' ofx, j = j' + 1 ∧
      l[j']? = some (DriverCall.floating_ip_removed fl ofx)

theorem pairedAdds_nil : pairedAdds [] := by
  intro j fl fx h
  simp at h

theorem pairedAdds_append_removed {l : List DriverCall} (h : pairedAdds l)
    (a : String) (b : Option String) :
    pairedAdds (l ++ [DriverCall.floating_ip_removed a b]) := by
  intro j fl fx hj
  rcases Nat.lt_or_ge j l.length with hlt | hge
  · rw [List.getElem?_append_left hlt] at hj
    obtain ⟨j', ofx, rfl, hj'⟩ := h j fl fx hj
    exact ⟨j', ofx, rfl, by rw [List.getElem?_append_left (by omega)]; exact hj'⟩
  · rw [List.getElem?_append_right hge] at hj
    cases hd : j - l.length with
    | zero => rw [hd] at hj; simp at hj
    | succ n => rw [hd] at hj; simp at hj

theorem pairedAdds_append_pair {l : List DriverCall} (h : pairedAdds l)
    (a : String) (b c : Option String) :
    pairedAdds (l ++ [DriverCall.floating_ip_removed a b,
      DriverCall.floating_ip_added a c]) := by
  intro j fl fx hj
  rcases Nat.lt_or_ge j l.length with hlt | hge
  · rw [List.getElem?_append_left hlt] at hj
    obtain ⟨j', ofx, rfl, hj'⟩ := h j fl fx hj
    exact ⟨j', ofx, rfl, by rw [List.getElem?_append_left (by omega)]; exact hj'⟩
  · rw [List.getElem?_append_right hge] at hj
    cases hd : j - l.length with
    | zero => rw [hd] at hj; simp at hj
    | succ n =>
      cases n with
      | zero =>
        rw [hd] at hj
        simp only [List.getElem?_cons_succ, List.getElem?_cons_zero,
          Option.some.injEq] at hj
        have hfl : fl = a := by
          cases hj
          rfl
        have hjeq : j = l.length + 1 := by omega
        refine ⟨l.length, b, hjeq, ?_⟩
        rw [List.getElem?_append_right (by omega)]
        simp [hfl]
      | succ k => rw [hd] at hj; simp at hj

/-- The mutation loop preserves the remap-pairing property of the
accumulated call list: each of its appends is either a lone
`floating_ip_removed` or the adjacent remap pair. -/
theorem fipMutLoop_pairedAdds (m : List (String × FloatingIp))
    (rid : List String) :
    ∀ pre rest calls l cs,
    fipMutLoop m rid pre rest calls = .ok (l, cs) →
    pairedAdds calls → pairedAdds cs := by
  intro pre rest calls
  induction pre, rest, calls using fipMutLoop.induct m rid with
  | case1 pre calls =>
    intro l cs h hp
    simp only [fipMutLoop, Except.ok.injEq, Prod.mk.injEq] at h
    exact h.2 ▸ hp
  | case2 pre f calls hmem =>
    intro l cs h hp
    simp only [fipMutLoop, hmem, if_true, Except.ok.injEq, Prod.mk.injEq] at h
    exact h.2 ▸ pairedAdds_append_removed hp _ _
  | case3 pre f calls hmem er c1 s suf' ih =>
    intro l cs h hp
    simp only [fipMutLoop, hmem, if_true] at h
    exact ih l cs h (pairedAdds_append_removed hp _ _)
  | case4 pre f suf calls hmem hlook =>
    intro l cs h _
    have hmem' : memB f.id rid = false := by
      cases hb : memB f.id rid
      · rfl
      · exact absurd hb hmem
    simp only [fipMutLoop, hmem', Bool.false_eq_true, if_false, hlook] at h
    simp at h
  | case5 pre f calls hmem nf hlook hremap =>
    intro l cs h hp
    have hmem' : memB f.id rid = false := by
      cases hb : memB f.id rid
      · rfl
      · exact absurd hb hmem
    simp only [fipMutLoop, hmem', Bool.false_eq_true, if_false, hlook, hremap,
      if_true, Except.ok.injEq, Prod.mk.injEq] at h
    exact h.2 ▸ pairedAdds_append_pair hp _ _ _
  | case6 pre f calls hmem nf hlook hremap c1 er s suf' ih =>
    intro l cs h hp
    have hmem' : memB f.id rid = false := by
      cases hb : memB f.id rid
      · rfl
      · exact absurd hb hmem
    simp only [fipMutLoop, hmem', Bool.false_eq_true, if_false, hlook, hremap,
      if_true] at h
    exact ih l cs h (pairedAdds_append_pair hp _ _ _)
  | case7 pre f suf calls hmem nf hlook hremap ih =>
    intro l cs h hp
    have hmem' : memB f.id rid = false := by
      cases hb : memB f.id rid
      · rfl
      · exact absurd hb hmem
    have hremap' : remapCond f nf = false := by
      cases hb : remapCond f nf
      · rfl
      · exact absurd hb hremap
    simp only [fipMutLoop, hmem', Bool.false_eq_true, if_false, hlook,
      hremap'] at h
    exact ih l cs h hp

/-! ## Registry lemmas -/

theorem dlookup_updateAssoc {α : Type} {k : String} (g : α → α) :
    ∀ {l : List (String × α)} {v : α}, dlookup k l = some v →
    dlookup k (updateAssoc k g l) = some (g v) := by
  intro l
  induction l with
  | nil => intro v h; simp [dlookup] at h
  | cons kv rest ih =>
    intro v h
    obtain ⟨k', v'⟩ := kv
    by_cases hk : k = k'
    · simp only [dlookup, if_pos hk] at h
      rw [Option.some_inj] at h
      subst h
      simp [updateAssoc, dlookup, if_pos hk]
    · simp only [dlookup, if_neg hk] at h
      simp only [updateAssoc, if_neg hk, dlookup]
      exact ih h

/-- The ids reported by `check_backlogged_hosting_entities` and the
entries it keeps all come from the input backlog. -/
theorem check_backlogged_sources (now dt : Nat) (ping : String → Bool) :
    ∀ bl : List (String × BacklogEntry),
    (∀ x ∈ (check_backlogged_hosting_entities now dt ping bl).1,
      x ∈ bl.map Prod.fst) ∧
    (∀ x ∈ (check_backlogged_hosting_entities now dt ping bl).2.1,
      x ∈ bl.map Prod.fst) ∧
    (∀ kv ∈ (check_backlogged_hosting_entities now dt ping bl).2.2, kv ∈ bl) := by
  intro bl
  induction bl with
  | nil => simp [check_backlogged_hosting_entities]
  | cons hd rest ih =>
    obtain ⟨hkId, e⟩ := hd
    obtain ⟨ihr, ihd, ihb⟩ := ih
    rcases hrec : check_backlogged_hosting_entities now dt ping rest with ⟨r, d, b⟩
    rw [hrec] at ihr ihd ihb
    simp only [check_backlogged_hosting_entities, hrec]
    by_cases h1 : is_older_than now e.he.created_at e.he.booting_time
    · by_cases h2 : ping e.he.ip_address
      · simp only [h1, h2, Bool.not_true, Bool.false_eq_true, if_false, if_true]
        refine ⟨?_, ?_, ?_⟩
        · intro x hx
          rcases List.mem_cons.1 hx with rfl | hx'
          · simp
          · exact List.mem_cons_of_mem _ (ihr x hx')
        · intro x hx
          exact List.mem_cons_of_mem _ (ihd x hx)
        · intro kv hkv
          exact List.mem_cons_of_mem _ (ihb kv hkv)
      · have h2' : ping e.he.ip_address = false := by
          cases hb : ping e.he.ip_address
          · rfl
          · exact absurd hb h2
        by_cases h3 : is_older_than now e.backlog_insertion_ts dt
        · simp only [h1, h2', Bool.not_false, Bool.false_eq_true, if_false,
            if_true, h3]
          refine ⟨?_, ?_, ?_⟩
          · intro x hx
            exact List.mem_cons_of_mem _ (ihr x hx)
          · intro x hx
            rcases List.mem_cons.1 hx with rfl | hx'
            · simp
            · exact List.mem_cons_of_mem _ (ihd x hx')
          · intro kv hkv
            exact List.mem_cons_of_mem _ (ihb kv hkv)
        · have h3' : is_older_than now e.backlog_insertion_ts dt = false := by
            cases hb : is_older_than now e.backlog_insertion_ts dt
            · rfl
            · exact absurd hb h3
          simp only [h1, h2', Bool.not_false, Bool.false_eq_true, if_false,
            if_true, h3']
          refine ⟨?_, ?_, ?_⟩
          · intro x hx
            exact List.mem_cons_of_mem _ (ihr x hx)
          · intro x hx
            exact List.mem_cons_of_mem _ (ihd x hx)
          · intro kv hkv
            rcases List.mem_cons.1 hkv with rfl | hkv'
            · exact List.mem_cons_self _ _
            · exact List.mem_cons_of_mem _ (ihb kv hkv')
    · have h1' : is_older_than now e.he.created_at e.he.booting_time = false := by
        cases hb : is_older_than now e.he.created_at e.he.booting_time
        · rfl
        · exact absurd hb h1
      simp only [h1', Bool.not_false, if_true]
      refine ⟨?_, ?_, ?_⟩
      · intro x hx
        exact List.mem_cons_of_mem _ (ihr x hx)
      · intro x hx
        exact List.mem_cons_of_mem _ (ihd x hx)
      · intro kv hkv
        rcases List.mem_cons.1 hkv with rfl | hkv'
        · exact List.mem_cons_self _ _
        · exact List.mem_cons_of_mem _ (ihb kv hkv')

/-! ## Process-level lemmas -/

theorem routes_updated_fst (old new : List Route) :
    (routes_updated old new).1 = new := rfl

theorem routes_updated_self (l : List Route) :
    routes_updated l l = (l, []) := by
  have hfil : l.filter (fun r => !memB r l) = [] := by
    rw [List.filter_eq_nil_iff]
    intro a ha
    simp [memB_iff a l, ha]
  simp [routes_updated, diff_list_of_dict, hfil, routeAddLoop]

theorem routes_updated_calls_shape (old new : List Route) :
    ∀ e ∈ (routes_updated old new).2, ∃ a r,
      e = DriverCall.routes_updated a r := by
  intro e he
  simp only [routes_updated, diff_list_of_dict] at he
  rcases h : routeAddLoop (new.filter (fun r => !memB r old))
    (old.filter (fun r => !memB r new)) [] with ⟨removes', calls⟩
  rw [h] at he
  simp only [List.mem_append] at he
  rcases he with he | he
  · have := routeAddLoop_snd (new.filter (fun r => !memB r old))
      (old.filter (fun r => !memB r new)) []
    rw [h] at this
    simp only at this
    rw [this] at he
    simp only [List.nil_append, List.mem_map] at he
    obtain ⟨a, _, rfl⟩ := he
    exact ⟨"replace", a, rfl⟩
  · simp only [List.mem_map] at he
    obtain ⟨r, _, rfl⟩ := he
    exact ⟨"delete", r, rfl⟩

/-- Destructor for a successful `process_router` pass: the stage results
and how the final state and trace are assembled from them. -/
theorem process_router_ok_destruct {ri ri' : RouterInfo}
    {c : List DriverCall} (h : process_router ri = .ok (ri', c)) :
    ∃ ports1 c1 gwFinal c3 fips' c4,
      addNewPortsLoop ri.snat_enabled ri.router.gw_port (newPorts ri)
        ri.internal_ports [] = .ok (ports1, c1) ∧
      gwStep ri.snat_enabled ri.router.gw_port ri.ex_gw_port
        (removeOldPortsLoop ri.snat_enabled ri.router.gw_port
          (oldPorts ri) ports1).1 = .ok (gwFinal, c3) ∧
      (match ri.router.gw_port with
       | some _ => process_router_floating_ips ri.floating_ips
           ri.router.floating_ips
       | none => .ok (ri.floating_ips, [])) = .ok (fips', c4) ∧
      ri' = { ri with
        internal_ports := (removeOldPortsLoop ri.snat_enabled
          ri.router.gw_port (oldPorts ri) ports1).1,
        ex_gw_port := gwFinal,
        floating_ips := fips',
        routes := (routes_updated ri.routes ri.router.routes).1 } ∧
      c = c1 ++ (removeOldPortsLoop ri.snat_enabled ri.router.gw_port
          (oldPorts ri) ports1).2 ++ c3 ++ c4 ++
        (routes_updated ri.routes ri.router.routes).2 := by
  simp only [process_router] at h
  cases hA : addNewPortsLoop ri.snat_enabled ri.router.gw_port (newPorts ri)
      ri.internal_ports [] with
  | error e => rw [hA] at h; exact absurd h (by simp)
  | ok p1 =>
    obtain ⟨ports1, c1⟩ := p1
    rw [hA] at h
    simp only at h
    rcases hB : removeOldPortsLoop ri.snat_enabled ri.router.gw_port
      (oldPorts ri) ports1 with ⟨ports2, c2⟩
    rw [hB] at h
    simp only at h
    cases hC : gwStep ri.snat_enabled ri.router.gw_port ri.ex_gw_port ports2 with
    | error e => rw [hC] at h; exact absurd h (by simp)
    | ok pc =>
      obtain ⟨gwFinal, c3⟩ := pc
      rw [hC] at h
      simp only at h
      cases hD : (match ri.router.gw_port with
        | some _ => process_router_floating_ips ri.floating_ips
            ri.router.floating_ips
        | none => .ok (ri.floating_ips, [])) with
      | error e => rw [hD] at h; exact absurd h (by simp)
      | ok fc =>
        obtain ⟨fips', c4⟩ := fc
        rw [hD] at h
        simp only at h
        rcases hE : routes_updated ri.routes ri.router.routes with ⟨routes', c5⟩
        rw [hE] at h
        simp only [Except.ok.injEq, Prod.mk.injEq] at h
        refine ⟨ports1, c1, gwFinal, c3, fips', c4, rfl, ?_, rfl, ?_, ?_⟩
        · rw [hB]; exact hC
        · rw [hB]; exact h.1.symm
        · rw [hB]; exact h.2.symm

/-- A pass with no port delta, matching gateway presence, identical route
lists and a silent floating-IP step issues no driver call. -/
theorem process_router_silent (r : RouterInfo)
    (hnew : newPorts r = []) (hold : oldPorts r = [])
    (hgw : r.router.gw_port.isSome = r.ex_gw_port.isSome)
    (hroutes : r.routes = r.router.routes)
    (hfip : r.router.gw_port.isSome = true →
      process_router_floating_ips r.floating_ips r.router.floating_ips =
        .ok (r.floating_ips, [])) :
    process_router r =
      .ok ({ r with ex_gw_port := r.router.gw_port, routes := r.router.routes },
        []) := by
  unfold process_router
  rw [hnew, hold]
  simp only [addNewPortsLoop, removeOldPortsLoop]
  cases hdg : r.router.gw_port with
  | none =>
    cases hag : r.ex_gw_port with
    | none =>
      simp only [gwStep, hroutes, routes_updated_self]
      rw [← hag]
      rfl
    | some g0 =>
      rw [hdg, hag] at hgw
      simp at hgw
  | some g =>
    cases hag : r.ex_gw_port with
    | none =>
      rw [hdg, hag] at hgw
      simp at hgw
    | some g0 =>
      have hf := hfip (by rw [hdg]; rfl)
      simp only [gwStep, hf, hroutes, routes_updated_self]
      rfl

/-- Destructor for a successful floating-IP step. -/
theorem process_router_floating_ips_ok_destruct
    {applied desired fips' : List FloatingIp} {cs : List DriverCall}
    (h : process_router_floating_ips applied desired = .ok (fips', cs)) :
    ∃ calls2,
      fipMutLoop ((fipAddLoop (applied.map (·.id)) desired applied [] []).2.1)
        ((applied.map (·.id)).filter (fun i => !memB i (desired.map (·.id))))
        [] ((fipAddLoop (applied.map (·.id)) desired applied [] []).1) [] =
        .ok (fips', calls2) ∧
      cs = (fipAddLoop (applied.map (·.id)) desired applied [] []).2.2 ++
        calls2 := by
  simp only [process_router_floating_ips] at h
  rcases hL : fipAddLoop (applied.map (·.id)) desired applied [] []
    with ⟨a1, m, c1⟩
  rw [hL] at h
  simp only at h
  cases hM : fipMutLoop m ((applied.map (·.id)).filter
      (fun i => !memB i (desired.map (·.id)))) [] a1 [] with
  | error e => rw [hM] at h; exact absurd h (by simp)
  | ok p =>
    obtain ⟨a2, c2⟩ := p
    rw [hM] at h
    simp only [Except.ok.injEq, Prod.mk.injEq] at h
    refine ⟨c2, ?_, ?_⟩
    · rw [hL]
      simp only
      rw [h.1] at hM
      exact hM
    · rw [hL]
      simp only
      rw [← h.2]

/-- The first loop's full result as one equation. -/
theorem fipAddLoop_eq (ids : List String) (desired applied : List FloatingIp) :
    fipAddLoop ids desired applied [] [] =
      (applied ++ desired.filter (fun f => f.port_id.isSome && !memB f.id ids),
       ((desired.filter (fun f => f.port_id.isSome)).map
         (fun f => (f.id, f))).reverse,
       (desired.filter (fun f => f.port_id.isSome && !memB f.id ids)).map
         (fun f => DriverCall.floating_ip_added f.floating_ip_address
           f.fixed_ip_address)) := by
  rcases hx : fipAddLoop ids desired applied [] [] with ⟨a, m, c⟩
  have h1 := fipAddLoop_fst ids desired applied [] []
  have h2 := fipAddLoop_map ids desired applied [] []
  have h3 := fipAddLoop_calls ids desired applied [] []
  rw [hx] at h1 h2 h3
  simp only at h1 h2 h3
  simp [h1, h2, h3]

/-- A floating-IP step that completed without issuing any
`floating_ip_removed` call is idempotent: re-running it on its own result
issues no call at all. -/
theorem process_router_floating_ips_idem
    {applied desired fips₁ : List FloatingIp} {cs : List DriverCall}
    (h : process_router_floating_ips applied desired = .ok (fips₁, cs))
    (hno : ∀ fl fx, DriverCall.floating_ip_removed fl fx ∉ cs) :
    process_router_floating_ips fips₁ desired = .ok (fips₁, []) := by
  obtain ⟨calls2, hmut, hcs⟩ := process_router_floating_ips_ok_destruct h
  rw [fipAddLoop_eq] at hmut
  simp only at hmut
  have hno2 : ∀ fl fx, DriverCall.floating_ip_removed fl fx ∉ calls2 := by
    intro fl fx hmem
    exact hno fl fx (hcs ▸ List.mem_append_right _ hmem)
  obtain ⟨hfips, hfacts⟩ := fipMutLoop_no_removed _ _ _ _ _ _ _ hmut hno2
  rw [List.nil_append] at hfips
  subst hfips
  have happ2 : desired.filter
      (fun f => f.port_id.isSome && !memB f.id
        ((applied ++ desired.filter (fun f => f.port_id.isSome &&
          !memB f.id (applied.map (·.id)))).map (·.id))) = [] := by
    rw [List.filter_eq_nil_iff]
    intro d hd
    simp only [Bool.and_eq_true, Bool.not_eq_true', memB_eq_false_iff, not_and,
      Decidable.not_not]
    intro hsome
    rw [List.map_append, List.mem_append]
    cases hb : memB d.id (applied.map (·.id)) with
    | true =>
      exact Or.inl ((memB_iff _ _).1 hb)
    | false =>
      right
      refine List.mem_map_of_mem (·.id) (List.mem_filter.2 ⟨hd, ?_⟩)
      simp [hb, hsome]
  have hrids2 : ((applied ++ desired.filter (fun f => f.port_id.isSome &&
      !memB f.id (applied.map (·.id)))).map (·.id)).filter
        (fun i => !memB i (desired.map (·.id))) = [] := by
    rw [List.filter_eq_nil_iff]
    intro i hi
    simp only [Bool.not_eq_true', memB_eq_false_iff, Decidable.not_not]
    rw [List.map_append, List.mem_append] at hi
    rcases hi with hi | hi
    · obtain ⟨f, hf, rfl⟩ := List.mem_map.1 hi
      have hface := hfacts f (List.mem_append_left _ hf)
      by_contra hcur
      have : memB f.id ((applied.map (·.id)).filter
          (fun i => !memB i (desired.map (·.id)))) = true := by
        rw [memB_iff]
        refine List.mem_filter.2 ⟨List.mem_map_of_mem (·.id) hf, ?_⟩
        simp only [Bool.not_eq_true', memB_eq_false_iff]
        exact hcur
      rw [hface.1] at this
      exact absurd this (by simp)
    · obtain ⟨f, hf, rfl⟩ := List.mem_map.1 hi
      exact List.mem_map_of_mem (·.id) (List.mem_of_mem_filter hf)
  simp only [process_router_floating_ips]
  rw [fipAddLoop_eq]
  simp only [happ2, List.append_nil, List.map_nil, hrids2]
  rw [fipMutLoop_noop _ _ _ [] []]
  · simp
  · intro f hf
    have hface := hfacts f hf
    refine ⟨by simp [memB], hface.2⟩

theorem gwStep_isSome {snat : Bool} {eg ag gf : Option Port} {ports : List Port}
    {c : List DriverCall} (h : gwStep snat eg ag ports = .ok (gf, c)) :
    gf.isSome = eg.isSome := by
  cases eg with
  | none =>
    cases ag with
    | none =>
      simp only [gwStep, Except.ok.injEq, Prod.mk.injEq] at h
      rw [← h.1]
    | some a =>
      simp only [gwStep, Except.ok.injEq, Prod.mk.injEq] at h
      rw [← h.1]
  | some g =>
    cases ag with
    | none =>
      simp only [gwStep] at h
      cases hs : set_subnet_info g with
      | error e => rw [hs] at h; exact absurd h (by simp)
      | ok g' =>
        rw [hs] at h
        simp only [Except.ok.injEq, Prod.mk.injEq] at h
        rw [← h.1]
        rfl
    | some a =>
      simp only [gwStep, Except.ok.injEq, Prod.mk.injEq] at h
      rw [← h.1]

/-! ## Claim theorems -/

/-- C1 (amended): a second `process_router` pass with an unchanged desired
spec issues zero driver calls, provided the first pass completed and
issued no `floating_ip_removed` call.  (As originally stated — for every
router whose pass completes without error — the claim fails: when the
first pass removes or remaps floating IPs, the in-place mutation of
`ri.floating_ips` during iteration skips the successor entry, and the
second pass then issues the leftover floating-IP operations; see the
counterexample.) -/
theorem c1_second_pass_silent (ri ri₁ : RouterInfo) (c₁ : List DriverCall)
    (h1 : process_router ri = .ok (ri₁, c₁))
    (hnorem : ∀ fl fx, DriverCall.floating_ip_removed fl fx ∉ c₁) :
    ∃ ri₂, process_router ri₁ = .ok (ri₂, []) := by
  obtain ⟨ports1, c1, gwFinal, c3, fips', c4, hA, hC, hD, hri, hc⟩ :=
    process_router_ok_destruct h1
  obtain ⟨news, hp, hids⟩ := addNewPortsLoop_ok hA
  have hm : ∀ x ∈ news, memB x.id (currentPortIds ri) = true := by
    intro x hx
    have hxid : x.id ∈ (newPorts ri).map (·.id) := by
      rw [← hids]
      exact List.mem_map_of_mem (·.id) hx
    obtain ⟨p, hpmem, hpid⟩ := List.mem_map.1 hxid
    have hfp := List.of_mem_filter hpmem
    simp only [Bool.and_eq_true] at hfp
    rw [← hpid]
    exact hfp.1
  have hports2 : (removeOldPortsLoop ri.snat_enabled ri.router.gw_port
      (oldPorts ri) ports1).1 =
      ri.internal_ports.filter (fun p => memB p.id (currentPortIds ri)) ++
        news := by
    rw [removeOldPortsLoop_fst, hp]
    exact foldl_eraseFirst_filter (fun p => memB p.id (currentPortIds ri))
      ri.internal_ports news hm
  have hrouter : ri₁.router = ri.router := by rw [hri]
  have hports : ri₁.internal_ports =
      ri.internal_ports.filter (fun p => memB p.id (currentPortIds ri)) ++
        news := by
    rw [hri]
    exact hports2
  have hroutes₁ : ri₁.routes = ri.router.routes := by
    rw [hri]
    exact routes_updated_fst ri.routes ri.router.routes
  have hfips₁ : ri₁.floating_ips = fips' := by rw [hri]
  have hgw₁ : ri₁.ex_gw_port = gwFinal := by rw [hri]
  have hcur : currentPortIds ri₁ = currentPortIds ri := by
    simp [currentPortIds, hrouter]
  have hnew2 : newPorts ri₁ = [] := by
    rw [newPorts, List.filter_eq_nil_iff]
    intro p hpmem hand
    rw [hrouter] at hpmem
    rw [Bool.and_eq_true] at hand
    rw [hcur] at hand
    have hmem2 : memB p.id (ri₁.internal_ports.map (·.id)) = true := by
      rw [memB_iff, hports, List.map_append, List.mem_append]
      cases hb : memB p.id (ri.internal_ports.map (·.id)) with
      | true =>
        obtain ⟨a, hamem, haid⟩ := List.mem_map.1 ((memB_iff _ _).1 hb)
        exact Or.inl (List.mem_map.2 ⟨a, List.mem_filter.2 ⟨hamem,
          by rw [haid]; exact hand.1⟩, haid⟩)
      | false =>
        refine Or.inr ?_
        rw [hids]
        refine List.mem_map_of_mem (·.id) (List.mem_filter.2 ⟨hpmem, ?_⟩)
        rw [Bool.and_eq_true]
        exact ⟨hand.1, by simp [hb]⟩
    rw [hmem2] at hand
    simp at hand
  have hold2 : oldPorts ri₁ = [] := by
    rw [oldPorts, List.filter_eq_nil_iff]
    intro q hqmem hand
    rw [hcur] at hand
    rw [hports, List.mem_append] at hqmem
    have hqc : memB q.id (currentPortIds ri) = true := by
      rcases hqmem with hq | hq
      · have h' := List.of_mem_filter hq
        simpa using h'
      · exact hm q hq
    rw [hqc] at hand
    simp at hand
  have hfip2 : ri₁.router.gw_port.isSome = true →
      process_router_floating_ips ri₁.floating_ips ri₁.router.floating_ips =
        .ok (ri₁.floating_ips, []) := by
    intro hsome
    rw [hrouter] at hsome ⊢
    rw [hfips₁]
    cases hgwd : ri.router.gw_port with
    | none => rw [hgwd] at hsome; simp at hsome
    | some g =>
      rw [hgwd] at hD
      simp only at hD
      have hno4 : ∀ fl fx, DriverCall.floating_ip_removed fl fx ∉ c4 := by
        intro fl fx hmem
        exact hnorem fl fx (by rw [hc]; simp [hmem])
      exact process_router_floating_ips_idem hD hno4
  refine ⟨_, process_router_silent ri₁ hnew2 hold2 ?_ ?_ hfip2⟩
  · rw [hrouter, hgw₁, gwStep_isSome hC]
  · rw [hroutes₁, hrouter]

theorem foldl_eraseFirst_self {α : Type} [DecidableEq α] :
    ∀ l : List α, List.foldl eraseFirst l l = [] := by
  intro l
  induction l with
  | nil => rfl
  | cons x xs ih =>
    have hstep : eraseFirst (x :: xs) x = xs := by simp [eraseFirst]
    calc List.foldl eraseFirst (x :: xs) (x :: xs)
        = List.foldl eraseFirst (eraseFirst (x :: xs) x) xs := rfl
      _ = List.foldl eraseFirst xs xs := by rw [hstep]
      _ = [] := ih

/-- C2 (amended): processing a deletion with deconfigure=true tears down
all internal ports and the applied gateway (the applied port list and
gateway end empty), but issues no `floating_ip_removed` call and leaves
the applied floating-IP list untouched — the desired gateway is cleared
first, so the floating-IP phase, guarded by gateway presence, never runs —
and afterwards the router's binding is dropped from the registry and the
cached drivers are evicted.  (As originally stated the claim fails: the
applied floating IPs are not torn down and the applied state does not end
empty; see the counterexample.) -/
theorem c2_removal_teardown (ri : RouterInfo) (reg : HostingEntitiesState)
    (g : Port) (hgw : ri.ex_gw_port = some g) :
    ∃ ri₂ calls reg₂,
      router_removed_deconfigure ri reg = .ok (ri₂, calls, reg₂) ∧
      ri₂.internal_ports = [] ∧
      ri₂.ex_gw_port = none ∧
      ri₂.floating_ips = ri.floating_ips ∧
      (∀ fl fx, DriverCall.floating_ip_removed fl fx ∉ calls) ∧
      DriverCall.external_gateway_removed g ∈ calls ∧
      (∀ p ∈ ri.internal_ports, DriverCall.internal_network_removed p ∈ calls) ∧
      (∀ kv ∈ reg₂.router_id_hosting_entities, kv.1 ≠ ri.router_id) ∧
      reg₂.drivers = [] := by
  have hrem : removeOldPortsLoop
      (ri.router.enable_snat.getD true) none
      (ri.internal_ports.filter (fun p => !memB p.id []))
      ri.internal_ports =
      ([], (ri.internal_ports.filter (fun p => !memB p.id [])).map
        (fun p => DriverCall.internal_network_removed p)) := by
    have hfil : ri.internal_ports.filter (fun p => !memB p.id []) =
        ri.internal_ports := by
      rw [List.filter_eq_self]
      intro a _
      simp [memB]
    rcases hx : removeOldPortsLoop (ri.router.enable_snat.getD true) none
        (ri.internal_ports.filter (fun p => !memB p.id []))
        ri.internal_ports with ⟨a, b⟩
    have h1 := removeOldPortsLoop_fst (ri.router.enable_snat.getD true) none
      (ri.internal_ports.filter (fun p => !memB p.id [])) ri.internal_ports
    have h2 := removeOldPortsLoop_snd_none (ri.router.enable_snat.getD true)
      (ri.internal_ports.filter (fun p => !memB p.id [])) ri.internal_ports
    rw [hx] at h1 h2
    simp only at h1 h2
    rw [hfil] at h1
    rw [h1, h2, foldl_eraseFirst_self]
  simp only [router_removed_deconfigure, process_router, RouterInfo.snat_enabled,
    newPorts, oldPorts, currentPortIds]
  simp only [List.filter_nil, List.map_nil, addNewPortsLoop]
  rw [hrem]
  simp only [gwStep, hgw]
  have hfil : ri.internal_ports.filter (fun p => !memB p.id []) =
      ri.internal_ports := by
    rw [List.filter_eq_self]
    intro a _
    simp [memB]
  refine ⟨_, _, _, rfl, rfl, rfl, rfl, ?_, ?_, ?_, ?_, ?_⟩
  · intro fl fx hmem
    simp only [List.nil_append, List.append_nil] at hmem
    rw [List.mem_append, List.mem_append, List.mem_append] at hmem
    rcases hmem with ((hmem | hmem) | hmem) | hmem
    · obtain ⟨p, _, hp⟩ := List.mem_map.1 hmem
      exact absurd hp (by simp)
    · rw [List.mem_append] at hmem
      rcases hmem with hmem | hmem
      · simp at hmem
      · simp only [List.mem_singleton] at hmem
        exact absurd hmem (by simp)
    · obtain ⟨a, r, har⟩ := routes_updated_calls_shape ri.routes
        ri.router.routes _ hmem
      exact absurd har (by simp)
    · simp only [List.mem_singleton] at hmem
      exact absurd hmem (by simp)
  · exact List.mem_append_left _ (List.mem_append_left _
      (List.mem_append_left _ (List.mem_append_right _
        (List.mem_append_right _ (List.mem_singleton_self _)))))
  · intro p hp
    have hA : DriverCall.internal_network_removed p ∈
        (ri.internal_ports.filter (fun p => !memB p.id [])).map
          (fun p => DriverCall.internal_network_removed p) :=
      List.mem_map_of_mem _ (List.mem_filter.2 ⟨hp, by simp [memB]⟩)
    exact List.mem_append_left _ (List.mem_append_left _
      (List.mem_append_left _ (List.mem_append_left _
        (List.mem_append_right [] hA))))
  · intro kv hkv
    simp only [remove_driver] at hkv
    have h' := List.of_mem_filter hkv
    simpa using h'
  · simp [remove_driver, idEqHostingEntityRecord]

/-- C3: the full-resync follow-up steps cannot complete.  With reachable
devices reported, `_sync_routers_task` calls `get_routers(context,
router_ids=None, he_ids=...)`, but `L3PluginApi.get_routers` declares the
keyword `hd_ids`, not `he_ids` — an uncaught `TypeError`.  With dead
devices reported, it calls `report_dead_hosting_entities`, a method
`L3PluginApi` does not define (the declared method is
`report_dead_hosting_devices`) — an uncaught `AttributeError`. -/
theorem c3_sync_followup_raises :
    sync_routers_task_followup ["he-1"] [] = .error (.typeError "he_ids") ∧
    sync_routers_task_followup [] ["he-2"] =
      .error (.attributeError "report_dead_hosting_entities") := by
  constructor <;> rfl

/-- Whether a driver call is a `floating_ip_added` event. -/
def isFipAdd : DriverCall → Bool
  | .floating_ip_added _ _ => true
  | _ => false

/-- C4 (amended): every completed floating-IP step's trace is the first
loop's additions (all `floating_ip_added`, for ids not yet applied)
followed by the mutation loop's calls, in which every `floating_ip_added`
is immediately preceded by a `floating_ip_removed` of the same floating
address — so whenever a remap is performed at all, the removal of the old
fixed address strictly precedes the addition of the new one.  (As
originally stated — the pair is issued for every id present in both sets
with a changed fixed address — the claim fails: removing an earlier
applied entry in the same pass mutates the list under the iterator and
skips the remap entirely, issuing neither call; see the
counterexample.) -/
theorem c4_remap_removed_before_added
    (applied desired fips' : List FloatingIp) (cs : List DriverCall)
    (h : process_router_floating_ips applied desired = .ok (fips', cs)) :
    ∃ c₁ c₂, cs = c₁ ++ c₂ ∧ (∀ e ∈ c₁, isFipAdd e = true) ∧
      pairedAdds c₂ := by
  obtain ⟨calls2, hmut, hcs⟩ := process_router_floating_ips_ok_destruct h
  refine ⟨_, calls2, hcs, ?_, ?_⟩
  · rw [fipAddLoop_eq]
    simp only
    intro e he
    obtain ⟨f, _, rfl⟩ := List.mem_map.1 he
    rfl
  · exact fipMutLoop_pairedAdds _ _ _ _ _ _ _ hmut pairedAdds_nil

theorem if_snat_map {snat : Bool} (hs : snat = true) (ports : List Port)
    (f : Port → DriverCall) :
    (if snat = true ∧ ports ≠ [] then ports.map f else []) = ports.map f := by
  subst hs
  cases ports with
  | nil => simp
  | cons p ps => simp

/-- C6: with snat enabled and no internal-port delta in the pass, adding
the desired gateway issues `external_gateway_added` first and then
`enable_internal_network_NAT` for each applied internal port, and
removing the gateway issues `disable_internal_network_NAT` for each
applied internal port strictly before `external_gateway_removed`. -/
theorem c6_gateway_nat_ordering (ri : RouterInfo)
    (hsnat : ri.snat_enabled = true)
    (hnew : newPorts ri = []) (hold : oldPorts ri = []) :
    (∀ g ri' calls, ri.router.gw_port = some g → ri.ex_gw_port = none →
      process_router ri = .ok (ri', calls) →
      ∃ g' rest, calls = DriverCall.external_gateway_added g' ::
        (ri.internal_ports.map
          (fun p => DriverCall.enable_internal_network_NAT p g') ++ rest)) ∧
    (∀ h ri' calls, ri.router.gw_port = none → ri.ex_gw_port = some h →
      process_router ri = .ok (ri', calls) →
      ∃ rest, calls = ri.internal_ports.map
          (fun p => DriverCall.disable_internal_network_NAT p h) ++
        (DriverCall.external_gateway_removed h :: rest)) := by
  constructor
  · intro g ri' calls hg hag hproc
    obtain ⟨ports1, c1, gwFinal, c3, fips', c4, hA, hC, hD, hri, hc⟩ :=
      process_router_ok_destruct hproc
    rw [hnew] at hA
    simp only [addNewPortsLoop, Except.ok.injEq, Prod.mk.injEq] at hA
    obtain ⟨hp1, hc1⟩ := hA
    rw [hold] at hC hc
    simp only [removeOldPortsLoop] at hC hc
    rw [← hp1] at hC
    rw [hg, hag] at hC
    simp only [gwStep] at hC
    cases hs : set_subnet_info g with
    | error e => rw [hs] at hC; exact absurd hC (by simp)
    | ok g' =>
      rw [hs] at hC
      simp only [Except.ok.injEq, Prod.mk.injEq] at hC
      refine ⟨g', c4 ++ (routes_updated ri.routes ri.router.routes).2, ?_⟩
      rw [hc, ← hc1, ← hC.2, if_snat_map hsnat]
      simp
  · intro h ri' calls hg hag hproc
    obtain ⟨ports1, c1, gwFinal, c3, fips', c4, hA, hC, hD, hri, hc⟩ :=
      process_router_ok_destruct hproc
    rw [hnew] at hA
    simp only [addNewPortsLoop, Except.ok.injEq, Prod.mk.injEq] at hA
    obtain ⟨hp1, hc1⟩ := hA
    rw [hold] at hC hc
    simp only [removeOldPortsLoop] at hC hc
    rw [← hp1] at hC
    rw [hg, hag] at hC
    simp only [gwStep, Except.ok.injEq, Prod.mk.injEq] at hC
    refine ⟨c4 ++ (routes_updated ri.routes ri.router.routes).2, ?_⟩
    rw [hc, ← hc1, ← hC.2, if_snat_map hsnat]
    simp

/-- Whether a call is `routes_updated('replace', ...)` for a destination. -/
def isReplaceFor (dest : String) : DriverCall → Bool
  | .routes_updated a r => decide (a = "replace") && decide (r.destination = dest)
  | _ => false

theorem countP_dest_le_one {l : List Route} {d : String}
    (h : (l.map (·.destination)).Nodup) :
    l.countP (fun r => decide (r.destination = d)) ≤ 1 := by
  have hc := List.nodup_iff_count_le_one.1 h d
  rw [List.count_eq_countP, List.countP_map] at hc
  have heq : l.countP (fun r => decide (r.destination = d)) =
      l.countP ((fun x => x == d) ∘ (·.destination)) := by
    apply List.countP_congr
    intro r _
    simp [Function.comp]
  rw [heq]
  exact hc

theorem routes_updated_calls_eq (old new : List Route) :
    (routes_updated old new).2 =
      (new.filter (fun r => !memB r old)).map
        (fun a => DriverCall.routes_updated "replace" a) ++
      (List.foldl (fun rs a => routeDelScan a.destination [] rs)
        (old.filter (fun r => !memB r new))
        (new.filter (fun r => !memB r old))).map
        (fun r => DriverCall.routes_updated "delete" r) := by
  simp only [routes_updated, diff_list_of_dict]
  rcases hx : routeAddLoop (new.filter fun r => !memB r old)
    (old.filter fun r => !memB r new) [] with ⟨removes', calls⟩
  have h1 := routeAddLoop_fst (new.filter fun r => !memB r old)
    (old.filter fun r => !memB r new) []
  have h2 := routeAddLoop_snd (new.filter fun r => !memB r old)
    (old.filter fun r => !memB r new) []
  rw [hx] at h1 h2
  simp only at h1 h2
  simp [h1, h2]

/-- C5: route reconciliation over route tables with per-list-unique
destinations.  An applied route whose destination left the desired list
gets a `delete` call; when a desired route keeps the destination with a
new nexthop, exactly one `replace` call is issued for that destination
and no `delete` call mentions it; the stored applied list ends equal to
the desired list verbatim. -/
theorem c5_route_replace_over_delete (old new : List Route)
    (hOld : (old.map (·.destination)).Nodup)
    (hNew : (new.map (·.destination)).Nodup) :
    (routes_updated old new).1 = new ∧
    (∀ r ∈ old, r.destination ∉ new.map (·.destination) →
      DriverCall.routes_updated "delete" r ∈ (routes_updated old new).2) ∧
    (∀ r ∈ old, ∀ n ∈ new, n.destination = r.destination →
      n.nexthop ≠ r.nexthop →
      ((routes_updated old new).2.countP (isReplaceFor r.destination) = 1 ∧
       ∀ r', DriverCall.routes_updated "delete" r' ∈
           (routes_updated old new).2 →
         r'.destination ≠ r.destination)) := by
  refine ⟨routes_updated_fst old new, ?_, ?_⟩
  · intro r hr hdest
    rw [routes_updated_calls_eq]
    refine List.mem_append_right _ (List.mem_map_of_mem _ ?_)
    apply foldl_routeDelScan_mem
    · refine List.mem_filter.2 ⟨hr, ?_⟩
      simp only [Bool.not_eq_true', memB_eq_false_iff]
      intro hmem
      exact hdest (List.mem_map_of_mem (·.destination) hmem)
    · intro a ha hda
      exact hdest (hda ▸ List.mem_map_of_mem (·.destination)
        (List.mem_of_mem_filter ha))
  · intro r hr n hn hdest hnh
    have hnotold : n ∉ old := by
      intro hnold
      exact hnh (congrArg Route.nexthop
        (List.inj_on_of_nodup_map hOld hnold hr hdest))
    have hnA : n ∈ new.filter (fun r => !memB r old) := by
      refine List.mem_filter.2 ⟨hn, ?_⟩
      simp only [Bool.not_eq_true', memB_eq_false_iff]
      exact hnotold
    constructor
    · rw [routes_updated_calls_eq, List.countP_append]
      have hdel0 : List.countP (isReplaceFor r.destination)
          ((List.foldl (fun rs a => routeDelScan a.destination [] rs)
            (old.filter (fun r => !memB r new))
            (new.filter (fun r => !memB r old))).map
            (fun r => DriverCall.routes_updated "delete" r)) = 0 := by
        rw [List.countP_eq_zero]
        intro e he
        obtain ⟨x, _, rfl⟩ := List.mem_map.1 he
        simp [isReplaceFor]
      have hrep : ((new.filter (fun r => !memB r old)).map
          (fun a => DriverCall.routes_updated "replace" a)).countP
            (isReplaceFor r.destination) =
          (new.filter (fun r => !memB r old)).countP
            (fun a => decide (a.destination = r.destination)) := by
        rw [List.countP_map]
        apply List.countP_congr
        intro a _
        simp [isReplaceFor, Function.comp]
      rw [hdel0, hrep]
      have hle : (new.filter (fun r => !memB r old)).countP
          (fun a => decide (a.destination = r.destination)) ≤ 1 :=
        le_trans ((List.filter_sublist new).countP_le _)
          (countP_dest_le_one hNew)
      have hge : 0 < (new.filter (fun r => !memB r old)).countP
          (fun a => decide (a.destination = r.destination)) :=
        List.countP_pos_iff.mpr ⟨n, hnA, by simp [hdest]⟩
      omega
    · intro r' hr' hdr
      rw [routes_updated_calls_eq, List.mem_append] at hr'
      rcases hr' with hr' | hr'
      · obtain ⟨a, _, ha⟩ := List.mem_map.1 hr'
        have : "replace" = "delete" := by
          have := congrArg (fun c => match c with
            | DriverCall.routes_updated act _ => act
            | _ => "") ha
          simpa using this
        exact absurd this (by decide)
      · obtain ⟨x, hx, hxe⟩ := List.mem_map.1 hr'
        have hxr : x = r' := by
          have := congrArg (fun c => match c with
            | DriverCall.routes_updated _ rt => rt
            | _ => x) hxe
          simpa using this
        subst hxr
        obtain ⟨s, t, hst⟩ := List.append_of_mem hnA
        rw [hst, List.foldl_append] at hx
        simp only [List.foldl_cons] at hx
        have hcount : (List.foldl (fun rs a => routeDelScan a.destination [] rs)
            (old.filter (fun r => !memB r new)) s).countP
              (fun x => decide (x.destination = n.destination)) ≤ 1 :=
          le_trans (foldl_routeDelScan_countP_le _ s _)
            (le_trans ((List.filter_sublist old).countP_le _)
              (countP_dest_le_one hOld))
        have hscan := routeDelScan_unique
          (List.foldl (fun rs a => routeDelScan a.destination [] rs)
            (old.filter (fun r => !memB r new)) s) []
          (by intro x hx'; simp at hx') hcount
        rw [hscan] at hx
        have hx2 := foldl_routeDelScan_subset t _ x hx
        have := List.of_mem_filter hx2
        simp only [Bool.not_eq_true', decide_eq_false_iff_not] at this
        exact this (hdr ▸ hdest.symm ▸ rfl)

/-- C7 (amended): for a device not yet backlogged whose liveness probe
fails, a backlog entry is created with insertion timestamp
`max(now, created_at + booting_time)` and affected-router list
`[router_id]`, the cached driver's connection is cleared — the driver
object itself stays in the registry's cache rather than being evicted
(refuting the claim's eviction clause; see the counterexample) — and
false is returned; for a device already backlogged, the router id is
appended to the entry's affected-router list and false is returned with
the same resulting state for either probe outcome (no re-probe). -/
theorem c7_unreachable_backlogs (now : Nat) (routerId : String) (he : HEntity)
    (st : HostingEntitiesState) :
    (dlookup he.id st.backlog = none →
      (is_hosting_entity_reachable now false routerId he st).1 = false ∧
      dlookup he.id
          (is_hosting_entity_reachable now false routerId he st).2.backlog =
        some ⟨he, max now (he.created_at + he.booting_time), [routerId]⟩ ∧
      (∀ dh, dlookup he.id st.drivers = some dh →
        dlookup he.id
            (is_hosting_entity_reachable now false routerId he st).2.drivers =
          some { dh with csr_conn := false })) ∧
    (∀ e, dlookup he.id st.backlog = some e → ∀ b : Bool,
      (is_hosting_entity_reachable now b routerId he st).1 = false ∧
      is_hosting_entity_reachable now b routerId he st =
        is_hosting_entity_reachable now (!b) routerId he st ∧
      dlookup he.id
          (is_hosting_entity_reachable now b routerId he st).2.backlog =
        some { e with routers := e.routers ++ [routerId] }) := by
  constructor
  · intro hnone
    refine ⟨?_, ?_, ?_⟩
    · simp [is_hosting_entity_reachable, hnone]
    · have h2 : (is_hosting_entity_reachable now false routerId he st).2.backlog
          = st.backlog ++
            [(he.id, ⟨he, max now (he.created_at + he.booting_time), [routerId]⟩)] := by
        simp [is_hosting_entity_reachable, hnone, clear_driver_connection]
      rw [h2, dlookup_append_of_none hnone]
      simp [dlookup]
    · intro dh hdh
      have h3 : (is_hosting_entity_reachable now false routerId he st).2.drivers
          = updateAssoc he.id (fun d => { d with csr_conn := false }) st.drivers := by
        simp [is_hosting_entity_reachable, hnone, clear_driver_connection]
      rw [h3]
      exact dlookup_updateAssoc _ hdh
  · intro e hsome b
    refine ⟨?_, ?_, ?_⟩
    · simp [is_hosting_entity_reachable, hsome]
    · simp [is_hosting_entity_reachable, hsome]
    · have h4 : (is_hosting_entity_reachable now b routerId he st).2.backlog
          = updateAssoc he.id
            (fun e => { e with routers := e.routers ++ [routerId] }) st.backlog := by
        simp [is_hosting_entity_reachable, hsome]
      rw [h4]
      exact dlookup_updateAssoc _ hsome

/-- A device id absent from the backlog's keys shows up nowhere in the
output of `check_backlogged_hosting_entities`. -/
theorem check_backlogged_not_mentioned (now dt : Nat) (ping : String → Bool)
    (rest : List (String × BacklogEntry)) (heId : String)
    (hnotin : heId ∉ rest.map Prod.fst) :
    heId ∉ (check_backlogged_hosting_entities now dt ping rest).1 ∧
    heId ∉ (check_backlogged_hosting_entities now dt ping rest).2.1 ∧
    heId ∉ ((check_backlogged_hosting_entities now dt ping rest).2.2).map
      Prod.fst := by
  obtain ⟨hr, hd, hb⟩ := check_backlogged_sources now dt ping rest
  refine ⟨fun h => hnotin (hr _ h), fun h => hnotin (hd _ h), fun h => ?_⟩
  obtain ⟨kv, hkv, hk⟩ := List.mem_map.1 h
  exact hnotin (hk ▸ List.mem_map_of_mem Prod.fst (hb kv hkv))

/-- C8: per-device trichotomy of `check_backlogged_hosting_entities` on a
backlog with distinct device ids.  A device still within its boot grace
is skipped: its entry is kept verbatim and its id is reported neither
reachable nor dead.  Past boot grace it is re-probed: a successful probe
drops the entry and reports the id reachable; a failed probe with the
entry backlogged longer than the dead timeout reports the id dead
exactly once and purges the entry; otherwise the entry stays backlogged
unchanged. -/
theorem c8_backlog_trichotomy (now dt : Nat) (ping : String → Bool) :
    ∀ (bl : List (String × BacklogEntry)) (heId : String) (e : BacklogEntry),
    (heId, e) ∈ bl → (bl.map Prod.fst).Nodup →
    (is_older_than now e.he.created_at e.he.booting_time = false →
      (heId, e) ∈ (check_backlogged_hosting_entities now dt ping bl).2.2 ∧
      heId ∉ (check_backlogged_hosting_entities now dt ping bl).1 ∧
      heId ∉ (check_backlogged_hosting_entities now dt ping bl).2.1) ∧
    (is_older_than now e.he.created_at e.he.booting_time = true →
      ping e.he.ip_address = true →
      heId ∈ (check_backlogged_hosting_entities now dt ping bl).1 ∧
      heId ∉ ((check_backlogged_hosting_entities now dt ping bl).2.2).map
        Prod.fst ∧
      heId ∉ (check_backlogged_hosting_entities now dt ping bl).2.1) ∧
    (is_older_than now e.he.created_at e.he.booting_time = true →
      ping e.he.ip_address = false →
      is_older_than now e.backlog_insertion_ts dt = true →
      List.count heId (check_backlogged_hosting_entities now dt ping bl).2.1
        = 1 ∧
      heId ∉ ((check_backlogged_hosting_entities now dt ping bl).2.2).map
        Prod.fst ∧
      heId ∉ (check_backlogged_hosting_entities now dt ping bl).1) ∧
    (is_older_than now e.he.created_at e.he.booting_time = true →
      ping e.he.ip_address = false →
      is_older_than now e.backlog_insertion_ts dt = false →
      (heId, e) ∈ (check_backlogged_hosting_entities now dt ping bl).2.2 ∧
      heId ∉ (check_backlogged_hosting_entities now dt ping bl).1 ∧
      heId ∉ (check_backlogged_hosting_entities now dt ping bl).2.1) := by
  intro bl
  induction bl with
  | nil =>
    intro heId e hmem _
    simp at hmem
  | cons hd rest ih =>
    intro heId e hmem hnodup
    obtain ⟨kId, kE⟩ := hd
    have hnodup' : (rest.map Prod.fst).Nodup := by
      simp only [List.map_cons, List.nodup_cons] at hnodup
      exact hnodup.2
    have hknotin : kId ∉ rest.map Prod.fst := by
      simp only [List.map_cons, List.nodup_cons] at hnodup
      exact hnodup.1
    rcases hrec : check_backlogged_hosting_entities now dt ping rest with ⟨r, rdb⟩
    obtain ⟨d, b⟩ := rdb
    rcases List.mem_cons.1 hmem with heq | hmem'
    · have h1 : heId = kId := congrArg Prod.fst heq
      have h2 : e = kE := congrArg Prod.snd heq
      subst h1
      subst h2
      obtain ⟨hnr, hnd, hnb⟩ :=
        check_backlogged_not_mentioned now dt ping rest heId hknotin
      rw [hrec] at hnr hnd hnb
      simp only [check_backlogged_hosting_entities, hrec]
      refine ⟨?_, ?_, ?_, ?_⟩
      · intro hc
        simp only [hc, Bool.not_false, if_true]
        exact ⟨List.mem_cons_self _ _, hnr, hnd⟩
      · intro hc1 hc2
        simp only [hc1, hc2, Bool.not_true, Bool.false_eq_true, if_false,
          if_true]
        exact ⟨List.mem_cons_self _ _, hnb, hnd⟩
      · intro hc1 hc2 hc3
        simp only [hc1, hc2, hc3, Bool.not_true, Bool.false_eq_true, if_false,
          if_true]
        refine ⟨?_, hnb, hnr⟩
        rw [List.count_cons_self, List.count_eq_zero.2 hnd]
      · intro hc1 hc2 hc3
        simp only [hc1, hc2, hc3, Bool.not_true, Bool.false_eq_true, if_false]
        exact ⟨List.mem_cons_self _ _, hnr, hnd⟩
    · have hne' : heId ≠ kId := by
        intro h
        subst h
        exact hknotin (List.mem_map_of_mem Prod.fst hmem')
      obtain ⟨ih1, ih2, ih3, ih4⟩ := ih heId e hmem' hnodup'
      rw [hrec] at ih1 ih2 ih3 ih4
      have hmapcons : ∀ X : List (String × BacklogEntry),
          heId ∉ X.map Prod.fst → heId ∉ ((kId, kE) :: X).map Prod.fst := by
        intro X hX
        simp only [List.map_cons, List.mem_cons]
        rintro (h | h)
        · exact hne' h
        · exact hX h
      have hconsr : ∀ X : List String, heId ∉ X → heId ∉ kId :: X := by
        intro X hX
        simp only [List.mem_cons]
        rintro (h | h)
        · exact hne' h
        · exact hX h
      have hcount : ∀ X : List String, List.count heId X = 1 →
          List.count heId (kId :: X) = 1 := by
        intro X hX
        rw [List.count_cons_of_ne hne', hX]
      simp only [check_backlogged_hosting_entities, hrec]
      cases hk1 : is_older_than now kE.he.created_at kE.he.booting_time with
      | false =>
        simp only [hk1, Bool.not_false, if_true]
        exact ⟨fun hc =>
            ⟨List.mem_cons_of_mem _ (ih1 hc).1, (ih1 hc).2.1, (ih1 hc).2.2⟩,
          fun hc1 hc2 => ⟨(ih2 hc1 hc2).1, hmapcons _ (ih2 hc1 hc2).2.1,
            (ih2 hc1 hc2).2.2⟩,
          fun hc1 hc2 hc3 => ⟨(ih3 hc1 hc2 hc3).1,
            hmapcons _ (ih3 hc1 hc2 hc3).2.1, (ih3 hc1 hc2 hc3).2.2⟩,
          fun hc1 hc2 hc3 => ⟨List.mem_cons_of_mem _ (ih4 hc1 hc2 hc3).1,
            (ih4 hc1 hc2 hc3).2.1, (ih4 hc1 hc2 hc3).2.2⟩⟩
      | true =>
        cases hk2 : ping kE.he.ip_address with
        | true =>
          simp only [hk1, hk2, Bool.not_true, Bool.false_eq_true, if_false,
            if_true]
          exact ⟨fun hc =>
              ⟨(ih1 hc).1, hconsr _ (ih1 hc).2.1, (ih1 hc).2.2⟩,
            fun hc1 hc2 => ⟨List.mem_cons_of_mem _ (ih2 hc1 hc2).1,
              (ih2 hc1 hc2).2.1, (ih2 hc1 hc2).2.2⟩,
            fun hc1 hc2 hc3 => ⟨(ih3 hc1 hc2 hc3).1, (ih3 hc1 hc2 hc3).2.1,
              hconsr _ (ih3 hc1 hc2 hc3).2.2⟩,
            fun hc1 hc2 hc3 => ⟨(ih4 hc1 hc2 hc3).1,
              hconsr _ (ih4 hc1 hc2 hc3).2.1, (ih4 hc1 hc2 hc3).2.2⟩⟩
        | false =>
          cases hk3 : is_older_than now kE.backlog_insertion_ts dt with
          | true =>
            simp only [hk1, hk2, hk3, Bool.not_true, Bool.false_eq_true,
              if_false, if_true]
            exact ⟨fun hc =>
                ⟨(ih1 hc).1, (ih1 hc).2.1, hconsr _ (ih1 hc).2.2⟩,
              fun hc1 hc2 => ⟨(ih2 hc1 hc2).1, (ih2 hc1 hc2).2.1,
                hconsr _ (ih2 hc1 hc2).2.2⟩,
              fun hc1 hc2 hc3 => ⟨hcount _ (ih3 hc1 hc2 hc3).1,
                (ih3 hc1 hc2 hc3).2.1, (ih3 hc1 hc2 hc3).2.2⟩,
              fun hc1 hc2 hc3 => ⟨(ih4 hc1 hc2 hc3).1, (ih4 hc1 hc2 hc3).2.1,
                hconsr _ (ih4 hc1 hc2 hc3).2.2⟩⟩
          | false =>
            simp only [hk1, hk2, hk3, Bool.not_true, Bool.false_eq_true,
              if_false]
            exact ⟨fun hc =>
                ⟨List.mem_cons_of_mem _ (ih1 hc).1, (ih1 hc).2.1,
                  (ih1 hc).2.2⟩,
              fun hc1 hc2 => ⟨(ih2 hc1 hc2).1, hmapcons _ (ih2 hc1 hc2).2.1,
                (ih2 hc1 hc2).2.2⟩,
              fun hc1 hc2 hc3 => ⟨(ih3 hc1 hc2 hc3).1,
                hmapcons _ (ih3 hc1 hc2 hc3).2.1, (ih3 hc1 hc2 hc3).2.2⟩,
              fun hc1 hc2 hc3 => ⟨List.mem_cons_of_mem _ (ih4 hc1 hc2 hc3).1,
                (ih4 hc1 hc2 hc3).2.1, (ih4 hc1 hc2 hc3).2.2⟩⟩

/-- C9 (amended): every driver push operation checks the device reply for
the `<ok />` success marker and, when the marker is absent (and the
operation's config guard lets the push happen), raises a push failure
that propagates to the caller — except `create_vrf`, whose whole body is
wrapped in a logging `except Exception` handler: its inner push check
raises, but the call itself returns normally, refuting the claim's
universal propagation (see the counterexample). -/
theorem c9_push_failures_propagate (d : Device) (vrf subif : String)
    (hno : hasOkMarker d.reply = false)
    (hvrf : vrf ∈ d.vrfs) (hsub : subif ∈ d.interfaces) :
    remove_vrf d vrf = .error .pushFailure ∧
    edit_running_config d = .error .pushFailure ∧
    create_subinterface d = .error .pushFailure ∧
    remove_subinterface d subif = .error .pushFailure ∧
    nat_rules_for_internet_access d = .error .pushFailure ∧
    add_interface_nat d = .error .pushFailure ∧
    remove_interface_nat d = .error .pushFailure ∧
    remove_dyn_nat_rule d = .error .pushFailure ∧
    add_floating_ip d = .error .pushFailure ∧
    remove_floating_ip d = .error .pushFailure ∧
    add_static_route d = .error .pushFailure ∧
    remove_static_route d = .error .pushFailure ∧
    add_default_static_route { d with default_route_cfg_present := false } =
      .error .pushFailure ∧
    remove_default_static_route { d with default_route_cfg_present := true } =
      .error .pushFailure ∧
    create_vrf_body d vrf = .error .pushFailure ∧
    create_vrf d vrf = .ok () := by
  have hcr : check_response d.reply = .error .pushFailure := by
    simp [check_response, hno]
  have hv : memB vrf d.vrfs = true := (memB_iff vrf d.vrfs).2 hvrf
  have hs : memB subif d.interfaces = true := (memB_iff subif d.interfaces).2 hsub
  refine ⟨?_, ?_, ?_, ?_, ?_, ?_, ?_, ?_, ?_, ?_, ?_, ?_, ?_, ?_, ?_, ?_⟩
  · simp [remove_vrf, hv, hcr, Except.map]
  · simp [edit_running_config, hcr, Except.map]
  · simp [create_subinterface, edit_running_config, hcr, Except.map]
  · simp [remove_subinterface, hs, hcr, Except.map]
  · cases hacl : d.acl_present <;>
      simp [nat_rules_for_internet_access, hacl, hcr, Except.map, Bind.bind, Except.bind, Pure.pure, Except.pure]
  · simp [add_interface_nat, hcr, Except.map]
  · simp [remove_interface_nat, hcr, Except.map]
  · cases hsn : d.snat_cfg_present <;>
      simp [remove_dyn_nat_rule, hsn, hcr, Except.map, Bind.bind, Except.bind, Pure.pure, Except.pure]
  · simp [add_floating_ip, hcr, Except.map]
  · simp [remove_floating_ip, hcr, Except.map]
  · simp [add_static_route, hcr, Except.map]
  · simp [remove_static_route, hcr, Except.map]
  · simp [add_default_static_route, hcr, Except.map]
  · simp [remove_default_static_route, hcr, Except.map]
  · simp [create_vrf_body, hcr, Except.map]
  · simp [create_vrf, pyCatchAll, create_vrf_body, hcr, Except.map]

/-- C10: when an applied floating IP's id also appears in the desired
list but only in entries whose bound-port field is empty — so the id is
neither re-added nor in the removal set — the lookup of that id in the
id→fip map built only from bound desired entries fails with a `KeyError`
that nothing catches, and a router pass reaching the floating-IP phase
aborts with it (shown here for the first applied floating IP, which the
mutation loop examines before any list surgery). -/
theorem c10_unbound_desired_keyerror (f : FloatingIp)
    (rest0 desired : List FloatingIp)
    (hin : f.id ∈ desired.map (·.id))
    (hunbound : ∀ d ∈ desired, d.id = f.id → d.port_id = none) :
    process_router_floating_ips (f :: rest0) desired =
      .error (.keyError f.id) ∧
    ∀ (ri : RouterInfo) (g : Port),
      ri.floating_ips = f :: rest0 → ri.router.floating_ips = desired →
      ri.router.gw_port = some g → ri.ex_gw_port = some g →
      newPorts ri = [] → oldPorts ri = [] →
      process_router ri = .error (.keyError f.id) := by
  have hrm : memB f.id (((f :: rest0).map (·.id)).filter
      (fun i => !memB i (desired.map (·.id)))) = false := by
    rw [memB_eq_false_iff]
    intro hmem
    have h' := List.of_mem_filter hmem
    rw [Bool.not_eq_true', memB_eq_false_iff] at h'
    exact h' hin
  have hm : dlookup f.id (((desired.filter (fun g => g.port_id.isSome)).map
      (fun g => (g.id, g))).reverse) = none := by
    have h0 := fip_map_lookup_none hunbound ([] : List (String × FloatingIp))
    rw [List.append_nil] at h0
    exact h0
  have hfip : process_router_floating_ips (f :: rest0) desired =
      .error (.keyError f.id) := by
    simp only [process_router_floating_ips, fipAddLoop_eq, List.cons_append]
    simp only [fipMutLoop, hrm, Bool.false_eq_true, if_false, hm]
  refine ⟨hfip, ?_⟩
  intro ri g hfa hfd hgw hegw hnew hold
  simp only [process_router, hnew, hold, hgw, hegw, hfa, hfd,
    addNewPortsLoop, removeOldPortsLoop, gwStep, hfip]

/-! ## Concrete fixtures -/

/-- A gateway port. -/
def gwPort0 : Port :=
  { id := "gw", admin_state_up := true, fixed_ips := ["192.0.2.1"],
    subnet_cidr := "192.0.2.0/24" }

/-- An internal port. -/
def intPort0 : Port :=
  { id := "i1", admin_state_up := true, fixed_ips := ["10.0.1.1"],
    subnet_cidr := "10.0.1.0/24" }

/-- A bound floating IP. -/
def fipA0 : FloatingIp :=
  { id := "a", floating_ip_address := "198.51.100.1",
    fixed_ip_address := some "10.0.0.1", port_id := some "p1" }

/-- A second bound floating IP. -/
def fipB0 : FloatingIp :=
  { id := "b", floating_ip_address := "198.51.100.2",
    fixed_ip_address := some "10.0.0.2", port_id := some "p2" }

/-- `fipB0` remapped to a new fixed address. -/
def fipB1 : FloatingIp := { fipB0 with fixed_ip_address := some "10.0.0.9" }

/-- `fipB0` with its bound port dropped. -/
def fipB2 : FloatingIp := { fipB0 with port_id := none }

/-- A router whose applied state matches its desired spec. -/
def riW1 : RouterInfo :=
  { router_id := "r1", ex_gw_port := some gwPort0,
    internal_ports := [intPort0], floating_ips := [fipA0],
    router := { gw_port := some gwPort0, interfaces := [intPort0],
                floating_ips := [fipA0], routes := [], enable_snat := none },
    routes := [] }

/-- A router with two applied floating IPs and none desired. -/
def riC1x : RouterInfo :=
  { router_id := "rx", ex_gw_port := some gwPort0, internal_ports := [],
    floating_ips := [fipA0, fipB0],
    router := { gw_port := some gwPort0, interfaces := [],
                floating_ips := [], routes := [], enable_snat := none },
    routes := [] }

/-- `riC1x` after its first reconciliation pass. -/
def riC1xMid : RouterInfo := { riC1x with floating_ips := [fipB0] }

/-- A hosting device. -/
def heW : HEntity :=
  { id := "he-1", ip_address := "203.0.113.5", created_at := 100,
    booting_time := 300 }

/-- A registry with one router bound to `heW` and a cached driver. -/
def regW : HostingEntitiesState :=
  { router_id_hosting_entities := [("r1", heW)],
    drivers := [("he-1", { csr_conn := true })], backlog := [] }

/-- A backlog entry for `heW`. -/
def beW : BacklogEntry :=
  { he := heW, backlog_insertion_ts := 400, routers := ["r1"] }

/-- A device whose reply lacks the success marker. -/
def devNoOk : Device :=
  { reply := "<rpc-error/>", vrfs := ["nrouter-1"],
    interfaces := ["GigabitEthernet1.500"], acl_present := true,
    snat_cfg_present := true, default_route_cfg_present := false }

/-- Two applied routes and a desired list replacing the second's nexthop. -/
def rt1 : Route := { destination := "172.16.1.0/24", nexthop := "10.0.0.2" }

/-- The second applied route. -/
def rt2 : Route := { destination := "172.16.2.0/24", nexthop := "10.0.0.3" }

/-- `rt2` with a new nexthop. -/
def rt2x : Route := { rt2 with nexthop := "10.0.0.4" }

/-- A router adding a gateway with an internal port already applied. -/
def riW6 : RouterInfo :=
  { router_id := "r6", ex_gw_port := none, internal_ports := [intPort0],
    floating_ips := [],
    router := { gw_port := some gwPort0, interfaces := [intPort0],
                floating_ips := [], routes := [], enable_snat := some true },
    routes := [] }

/-! ## Witnesses and counterexamples -/

/-- C1's amended statement at a concrete router: the first pass of `riW1`
succeeds silently with no `floating_ip_removed`, and a silent second pass
exists. -/
theorem c1_second_pass_silent_witness :
    ∃ ri₂, process_router riW1 = .ok (ri₂, []) :=
  c1_second_pass_silent riW1 riW1 []
    (by simp [process_router, riW1, newPorts, oldPorts, currentPortIds, memB,
      addNewPortsLoop, removeOldPortsLoop, gwStep, process_router_floating_ips,
      fipAddLoop, fipMutLoop, dlookup, remapCond, eraseFirst, routes_updated,
      diff_list_of_dict, routeDelScan, routeAddLoop, gwPort0, intPort0, fipA0,
      RouterInfo.snat_enabled])
    (fun fl fx h => absurd h (List.not_mem_nil _))

/-- Counterexample to C1 as frozen: the first pass of `riC1x` succeeds —
removing one stale floating IP and, by mutating the list under the
iterator, skipping the other — and the second pass with the unchanged
spec is not silent: it issues the skipped `floating_ip_removed`. -/
theorem c1_counterexample :
    process_router riC1x =
      .ok (riC1xMid,
        [DriverCall.floating_ip_removed "198.51.100.1" (some "10.0.0.1")]) ∧
    ¬ ∃ ri₂, process_router riC1xMid = .ok (ri₂, []) := by
  constructor
  · simp [process_router, riC1x, riC1xMid, newPorts, oldPorts, currentPortIds,
      memB, addNewPortsLoop, removeOldPortsLoop, gwStep,
      process_router_floating_ips, fipAddLoop, fipMutLoop, dlookup, remapCond,
      eraseFirst, routes_updated, diff_list_of_dict, routeDelScan,
      routeAddLoop, gwPort0, fipA0, fipB0, RouterInfo.snat_enabled]
  · rintro ⟨ri₂, h⟩
    have h2 : process_router riC1xMid =
        .ok ({ riC1x with floating_ips := [] },
          [DriverCall.floating_ip_removed "198.51.100.2" (some "10.0.0.2")]) := by
      simp [process_router, riC1x, riC1xMid, newPorts, oldPorts,
        currentPortIds, memB, addNewPortsLoop, removeOldPortsLoop, gwStep,
        process_router_floating_ips, fipAddLoop, fipMutLoop, dlookup,
        remapCond, eraseFirst, routes_updated, diff_list_of_dict,
        routeDelScan, routeAddLoop, gwPort0, fipA0, fipB0,
        RouterInfo.snat_enabled]
    rw [h2] at h
    simp at h

/-- C2's amended statement at a concrete router and registry: the
teardown clears ports and gateway, drops the binding and the cached
drivers, but leaves the applied floating IPs untouched with no
`floating_ip_removed` call. -/
theorem c2_removal_teardown_witness :
    ∃ ri₂ calls reg₂,
      router_removed_deconfigure riW1 regW = .ok (ri₂, calls, reg₂) ∧
      ri₂.internal_ports = [] ∧
      ri₂.ex_gw_port = none ∧
      ri₂.floating_ips = riW1.floating_ips ∧
      (∀ fl fx, DriverCall.floating_ip_removed fl fx ∉ calls) ∧
      DriverCall.external_gateway_removed gwPort0 ∈ calls ∧
      (∀ p ∈ riW1.internal_ports,
        DriverCall.internal_network_removed p ∈ calls) ∧
      (∀ kv ∈ reg₂.router_id_hosting_entities, kv.1 ≠ riW1.router_id) ∧
      reg₂.drivers = [] :=
  c2_removal_teardown riW1 regW gwPort0 rfl

/-- Counterexample to C2 as frozen: deleting `riW1` — applied gateway,
port and floating IP all populated — leaves the floating IP in the
applied state: the gateway key is cleared before `process_router` runs,
so the floating-IP phase is skipped and the applied state does not end
empty. -/
theorem c2_counterexample :
    ∃ ri₂ calls reg₂,
      router_removed_deconfigure riW1 regW = .ok (ri₂, calls, reg₂) ∧
      ri₂.floating_ips = [fipA0] ∧
      (∀ fl fx, DriverCall.floating_ip_removed fl fx ∉ calls) := by
  refine ⟨_, _, _, rfl, rfl, ?_⟩
  intro fl fx h
  simp at h

/-- C4's amended statement at a concrete input: applied `[fipA0, fipB0]`,
desired `[fipB1]` (same id as `fipB0`, new fixed address); the pass
succeeds and its trace splits into first-loop additions and a
paired-adds suffix. -/
theorem c4_remap_removed_before_added_witness :
    ∃ c₁ c₂,
      [DriverCall.floating_ip_removed "198.51.100.1" (some "10.0.0.1")] =
        c₁ ++ c₂ ∧ (∀ e ∈ c₁, isFipAdd e = true) ∧ pairedAdds c₂ :=
  c4_remap_removed_before_added [fipA0, fipB0] [fipB1] [fipB0]
    [DriverCall.floating_ip_removed "198.51.100.1" (some "10.0.0.1")]
    (by simp [process_router_floating_ips, fipAddLoop, fipMutLoop, dlookup,
      remapCond, eraseFirst, memB, fipA0, fipB0, fipB1])

/-- Counterexample to C4 as frozen: id `b` is present in both sets with
both fixed addresses non-empty and different, yet the completed pass
issues no `floating_ip_added` for its floating address at all — the
removal of the stale entry `fipA0` shifted the list under the iterator
and the remap was skipped. -/
theorem c4_counterexample :
    process_router_floating_ips [fipA0, fipB0] [fipB1] =
      .ok ([fipB0],
        [DriverCall.floating_ip_removed "198.51.100.1" (some "10.0.0.1")]) ∧
    fipB1.id = fipB0.id ∧
    fipB0.fixed_ip_address ≠ fipB1.fixed_ip_address ∧
    (∀ fx, DriverCall.floating_ip_added "198.51.100.2" fx ∉
      [DriverCall.floating_ip_removed "198.51.100.1" (some "10.0.0.1")]) := by
  refine ⟨?_, rfl, by decide, ?_⟩
  · simp [process_router_floating_ips, fipAddLoop, fipMutLoop, dlookup,
      remapCond, eraseFirst, memB, fipA0, fipB0, fipB1]
  · intro fx h
    simp at h

/-- C5 at a concrete input: applied `[rt1, rt2]`, desired `[rt2x]` with
`rt2`'s destination and a new nexthop — the stored list ends as the
desired list, `rt1` is deleted, and `rt2`'s destination gets exactly one
replace and no delete. -/
theorem c5_route_replace_over_delete_witness :
    (routes_updated [rt1, rt2] [rt2x]).1 = [rt2x] ∧
    (∀ r ∈ [rt1, rt2], r.destination ∉ [rt2x].map (·.destination) →
      DriverCall.routes_updated "delete" r ∈
        (routes_updated [rt1, rt2] [rt2x]).2) ∧
    (∀ r ∈ [rt1, rt2], ∀ n ∈ [rt2x], n.destination = r.destination →
      n.nexthop ≠ r.nexthop →
      ((routes_updated [rt1, rt2] [rt2x]).2.countP
          (isReplaceFor r.destination) = 1 ∧
       ∀ r', DriverCall.routes_updated "delete" r' ∈
           (routes_updated [rt1, rt2] [rt2x]).2 →
         r'.destination ≠ r.destination)) :=
  c5_route_replace_over_delete [rt1, rt2] [rt2x] (by decide) (by decide)

/-- C6 at a concrete router: `riW6` has snat enabled, its internal port
already applied and no port delta, so in both gateway directions the
claimed NAT ordering holds. -/
theorem c6_gateway_nat_ordering_witness :
    (∀ g ri' calls, riW6.router.gw_port = some g → riW6.ex_gw_port = none →
      process_router riW6 = .ok (ri', calls) →
      ∃ g' rest, calls = DriverCall.external_gateway_added g' ::
        (riW6.internal_ports.map
          (fun p => DriverCall.enable_internal_network_NAT p g') ++ rest)) ∧
    (∀ h ri' calls, riW6.router.gw_port = none → riW6.ex_gw_port = some h →
      process_router riW6 = .ok (ri', calls) →
      ∃ rest, calls = riW6.internal_ports.map
          (fun p => DriverCall.disable_internal_network_NAT p h) ++
        (DriverCall.external_gateway_removed h :: rest)) :=
  c6_gateway_nat_ordering riW6 rfl rfl rfl

/-- Counterexample to C7 as frozen: a device not backlogged whose probe
fails gets backlogged with the claimed timestamp and router list and the
call returns false — but the cached driver for the device is still in
the registry's driver cache afterwards (with only its connection
cleared), not evicted. -/
theorem c7_counterexample :
    (is_hosting_entity_reachable 1000 false "r1" heW regW).1 = false ∧
    dlookup "he-1"
        (is_hosting_entity_reachable 1000 false "r1" heW regW).2.backlog =
      some { he := heW, backlog_insertion_ts := 1000, routers := ["r1"] } ∧
    dlookup "he-1"
        (is_hosting_entity_reachable 1000 false "r1" heW regW).2.drivers =
      some { csr_conn := false } :=
  ⟨rfl, rfl, rfl⟩

/-- C8 at a concrete backlog: device `he-1` is past its boot grace, still
unreachable, and backlogged longer than the dead timeout — it is
reported dead exactly once and purged. -/
theorem c8_backlog_trichotomy_witness :
    List.count "he-1" (check_backlogged_hosting_entities 1000 300
      (fun _ => false) [("he-1", beW)]).2.1 = 1 ∧
    "he-1" ∉ ((check_backlogged_hosting_entities 1000 300 (fun _ => false)
      [("he-1", beW)]).2.2).map Prod.fst ∧
    "he-1" ∉ (check_backlogged_hosting_entities 1000 300 (fun _ => false)
      [("he-1", beW)]).1 :=
  (c8_backlog_trichotomy 1000 300 (fun _ => false) [("he-1", beW)] "he-1" beW
    (by simp) (by simp)).2.2.1 (by decide) rfl (by decide)

/-- C9's amended statement at a concrete device whose reply lacks the
marker: an unguarded push and a guarded one both raise, and `create_vrf`
swallows its failure. -/
theorem c9_push_failures_propagate_witness :
    edit_running_config devNoOk = .error .pushFailure ∧
    remove_vrf devNoOk "nrouter-1" = .error .pushFailure ∧
    create_vrf devNoOk "nrouter-1" = .ok () := by
  have h := c9_push_failures_propagate devNoOk "nrouter-1"
    "GigabitEthernet1.500" (by decide) (by decide) (by decide)
  obtain ⟨h1, h2, -, -, -, -, -, -, -, -, -, -, -, -, -, h16⟩ := h
  exact ⟨h2, h1, h16⟩

/-- Counterexample to C9 as frozen: the device's reply lacks the success
marker and `create_vrf`'s inner push check raises, yet the operation
returns normally to its caller instead of propagating the failure. -/
theorem c9_counterexample :
    hasOkMarker devNoOk.reply = false ∧
    create_vrf_body devNoOk "nrouter-1" = .error .pushFailure ∧
    create_vrf devNoOk "nrouter-1" = .ok () :=
  ⟨by decide, rfl, rfl⟩

/-- C10 at a concrete input: the applied floating IP `fipB0`'s id appears
in the desired list only as `fipB2`, which has no bound port, so the
floating-IP pass — and any router pass reaching it — aborts with a
`KeyError` for id `b`. -/
theorem c10_unbound_desired_keyerror_witness :
    process_router_floating_ips [fipB0] [fipB2] =
      .error (.keyError "b") ∧
    ∀ (ri : RouterInfo) (g : Port),
      ri.floating_ips = [fipB0] → ri.router.floating_ips = [fipB2] →
      ri.router.gw_port = some g → ri.ex_gw_port = some g →
      newPorts ri = [] → oldPorts ri = [] →
      process_router ri = .error (.keyError "b") :=
  c10_unbound_desired_keyerror fipB0 [] [fipB2] (by decide) (by decide)
